import Mathlib

/-!
Verification development for the xmission XMIT/virtual-tape decoder
library (`xmilib.py`).  Python byte strings are modelled as `List Nat`
(each element a byte value), Python text strings as `List Char`, and
Python dicts as association lists in insertion order with in-place value
update, mirroring CPython semantics.  Fallible code returns
`Except PyErr`.
-/

set_option maxHeartbeats 1000000
set_option maxRecDepth 10000
set_option linter.unusedVariables false

namespace Xmi

/-- Python exception kinds that the modelled code can raise. -/
inductive PyErr where
  | keyErr
  | indexErr
  | typeErr
  | valueErr
  | structErr
  | nameErr
  | exc
  deriving DecidableEq, Repr

deriving instance DecidableEq for Except

/-- Python text strings are modelled as lists of characters. -/
abbrev PyStr := List Char

/-- Model of a Python byte-slice `b[i:j]` with non-negative indices:
clamps at the end of the buffer and yields `[]` when `j <= i`. -/
def pySlice (l : List Nat) (i j : Nat) : List Nat :=
  (l.drop i).take (j - i)

/-- Model of a Python sequence slice `s[i:j]` with possibly negative
`int` indices: a negative index counts from the end, and both ends clamp
into `[0, len]`. -/
def pySliceI (l : List α) (i j : Int) : List α :=
  let n : Int := l.length
  let norm : Int → Nat := fun k => if k < 0 then (max 0 (n + k)).toNat else min k.toNat l.length
  (l.drop (norm i)).take (norm j - norm i)

/-- Model of Python `s[i]` on a list (raises `IndexError` out of range). -/
def pyIndex (l : List α) (i : Nat) : Except PyErr α :=
  match l.drop i with
  | [] => .error .indexErr
  | a :: _ => .ok a

/-- Model of `int.from_bytes(bytes, 'big')`; the empty slice yields 0. -/
def pygetInt (l : List Nat) : Nat :=
  l.foldl (fun a b => a * 256 + b) 0

/-- Characters for which Python `str.isspace()` is true, restricted to
the repertoire of codepage 1140 (ASCII whitespace, the C1 NEL, NBSP). -/
def pyIsSpace (c : Char) : Bool :=
  c = ' ' || c = '\t' || c = '\n' || c = '\r' || c = '\x0b' || c = '\x0c' ||
  c = '\x1c' || c = '\x1d' || c = '\x1e' || c = '\x1f' || c = '\x85' || c = ' '

/-- Model of Python `str.rstrip()` (strip trailing whitespace). -/
def pyRstrip (l : PyStr) : PyStr :=
  (l.reverse.dropWhile pyIsSpace).reverse

/-- Characters for which Python `str.isnumeric()` is true, restricted to
the repertoire of codepage 1140: the ASCII digits together with the
Latin-1 superscripts and vulgar fractions. -/
def pyIsNumericChar (c : Char) : Bool :=
  (('0' ≤ c) && (c ≤ '9')) || c = '¹' || c = '²' || c = '³' ||
  c = '¼' || c = '½' || c = '¾'

/-- Model of Python `str.isnumeric()` (false on the empty string). -/
def pyIsNumeric (l : PyStr) : Bool :=
  !l.isEmpty && l.all pyIsNumericChar

/-- Python dict lookup on an insertion-ordered association list. -/
def dictGet [DecidableEq α] (l : List (α × β)) (k : α) : Option β :=
  match l with
  | [] => none
  | (a, b) :: t => if a = k then some b else dictGet t k

/-- Python dict assignment `d[k] = v`: updates the value in place when
the key exists (keeping its position) and appends otherwise. -/
def dictSet [DecidableEq α] (l : List (α × β)) (k : α) (v : β) : List (α × β) :=
  match l with
  | [] => [(k, v)]
  | (a, b) :: t => if a = k then (a, v) :: t else (a, b) :: dictSet t k v

/-- Decode table for EBCDIC codepage 1140 (codepage 037 with the
currency sign replaced by the euro sign), byte value to Unicode. -/
def cp1140Table : List Char :=
  ['\u0000', '\u0001', '\u0002', '\u0003', '\u009C', '\u0009', '\u0086', '\u007F',
   '\u0097', '\u008D', '\u008E', '\u000B', '\u000C', '\u000D', '\u000E', '\u000F',
   '\u0010', '\u0011', '\u0012', '\u0013', '\u009D', '\u0085', '\u0008', '\u0087',
   '\u0018', '\u0019', '\u0092', '\u008F', '\u001C', '\u001D', '\u001E', '\u001F',
   '\u0080', '\u0081', '\u0082', '\u0083', '\u0084', '\u000A', '\u0017', '\u001B',
   '\u0088', '\u0089', '\u008A', '\u008B', '\u008C', '\u0005', '\u0006', '\u0007',
   '\u0090', '\u0091', '\u0016', '\u0093', '\u0094', '\u0095', '\u0096', '\u0004',
   '\u0098', '\u0099', '\u009A', '\u009B', '\u0014', '\u0015', '\u009E', '\u001A',
   ' ', ' ', 'â', 'ä', 'à', 'á', 'ã', 'å',
   'ç', 'ñ', '¢', '.', '<', '(', '+', '|',
   '&', 'é', 'ê', 'ë', 'è', 'í', 'î', 'ï',
   'ì', 'ß', '!', '$', '*', ')', ';', '¬',
   '-', '/', 'Â', 'Ä', 'À', 'Á', 'Ã', 'Å',
   'Ç', 'Ñ', '¦', ',', '%', '_', '>', '?',
   'ø', 'É', 'Ê', 'Ë', 'È', 'Í', 'Î', 'Ï',
   'Ì', '`', ':', '#', '@', '\'', '=', '"',
   'Ø', 'a', 'b', 'c', 'd', 'e', 'f', 'g',
   'h', 'i', '«', '»', 'ð', 'ý', 'þ', '±',
   '°', 'j', 'k', 'l', 'm', 'n', 'o', 'p',
   'q', 'r', 'ª', 'º', 'æ', '¸', 'Æ', '€',
   'µ', '~', 's', 't', 'u', 'v', 'w', 'x',
   'y', 'z', '¡', '¿', 'Ð', 'Ý', 'Þ', '®',
   '^', '£', '¥', '·', '©', '§', '¶', '¼',
   '½', '¾', '[', ']', '¯', '¨', '´', '×',
   '{', 'A', 'B', 'C', 'D', 'E', 'F', 'G',
   'H', 'I', '\u00AD', 'ô', 'ö', 'ò', 'ó', 'õ',
   '}', 'J', 'K', 'L', 'M', 'N', 'O', 'P',
   'Q', 'R', '¹', 'û', 'ü', 'ù', 'ú', 'ÿ',
   '\\', '÷', 'S', 'T', 'U', 'V', 'W', 'X',
   'Y', 'Z', '²', 'Ô', 'Ö', 'Ò', 'Ó', 'Õ',
   '0', '1', '2', '3', '4', '5', '6', '7',
   '8', '9', '³', 'Û', 'Ü', 'Ù', 'Ú', '\u009F']

/-- Decode one EBCDIC cp1140 byte to a character. -/
def ebc (b : Nat) : Char :=
  cp1140Table.getD b '�'

/-- Model of `bytes.decode('cp1140')`. -/
def ebcdicDecode (l : List Nat) : PyStr :=
  l.map ebc

/-- Source: `xmilib.py` `get_recfm` (lines 1082-1108).  Decodes the
two-byte RECFM field; Python indexes `recfm[0]`, raising `IndexError`
on an empty slice. -/
def get_recfm (recfm : List Nat) : Except PyErr PyStr :=
  match recfm with
  | [] => .error .indexErr
  | flag :: _ =>
    let rfm : PyStr :=
      if flag &&& 0xC0 = 0x40 then ['V']
      else if flag &&& 0xC0 = 0x80 then ['F']
      else if flag &&& 0xC0 = 0xC0 then ['U']
      else ['?']
    let rfm := if flag &&& 0x10 = 0x10 then rfm ++ ['B'] else rfm
    let rfm := if flag &&& 0x04 = 0x04 then rfm ++ ['A'] else rfm
    let rfm := if flag &&& 0x02 = 0x02 then rfm ++ ['M'] else rfm
    let rfm := if flag &&& 0x08 = 0x08 then rfm ++ ['S'] else rfm
    .ok rfm

/-- Source: `xmilib.py` `get_dsorg` (lines 1059-1080) on an integer
DSORG value (for a byte argument the source first applies
`int.from_bytes`). -/
def get_dsorg (file_dsorg : Nat) : PyStr :=
  let org : PyStr := []
  let org := if 0x8000 &&& file_dsorg = 0x8000 then ['I', 'S', 'A', 'M'] else org
  let org := if 0x4000 &&& file_dsorg = 0x4000 then ['P', 'S'] else org
  let org := if 0x2000 &&& file_dsorg = 0x2000 then ['D', 'A'] else org
  let org := if 0x1000 &&& file_dsorg = 0x1000 then ['B', 'T', 'A', 'M'] else org
  let org := if 0x0200 &&& file_dsorg = 0x0200 then ['P', 'O'] else org
  let org := if org.isEmpty then ['?'] else org
  if 0x0001 &&& file_dsorg = 0x0001 then org ++ ['U'] else org

/-- Decimal digit character. -/
def digitCharN (d : Nat) : Char :=
  Char.ofNat (48 + d)

/-- Fuel-driven digit renderer (structural recursion so that the kernel
can evaluate it). -/
def natStrGo : Nat → Nat → PyStr
  | 0, _ => []
  | fuel + 1, n =>
    if n < 10 then [digitCharN n]
    else natStrGo fuel (n / 10) ++ [digitCharN (n % 10)]

/-- Decimal rendering of a natural number (model of Python `str(n)`). -/
def natStr (n : Nat) : PyStr :=
  natStrGo (n + 1) n

/-- Lowercase hexadecimal digit character. -/
def hexDigitCharN (d : Nat) : Char :=
  if d < 10 then digitCharN d else Char.ofNat (87 + d)

/-- Fuel-driven lowercase hexadecimal renderer. -/
def hexStrGo : Nat → Nat → PyStr
  | 0, _ => []
  | fuel + 1, n =>
    if n < 16 then [hexDigitCharN n]
    else hexStrGo fuel (n / 16) ++ [hexDigitCharN (n % 16)]

/-- Lowercase hexadecimal rendering of a natural number. -/
def hexStr (n : Nat) : PyStr :=
  hexStrGo (n + 1) n

/-- Model of Python format `{:02x}` (pad to at least two hex digits). -/
def hex2 (n : Nat) : PyStr :=
  List.replicate (2 - (hexStr n).length) '0' ++ hexStr n

/-- Zero-padded decimal rendering, model of Python format `{:0wd}`
(pads to at least `w` characters, never truncates). -/
def padz (w n : Nat) : PyStr :=
  List.replicate (w - (natStr n).length) '0' ++ natStr n

/-- True when the COPYR1 eye-catcher sits at bytes 1..4 (XMIT layout). -/
def copyr1EyeXmit (r : List Nat) : Bool :=
  pygetInt (pySlice r 1 4) == 0xCA6D0F

/-- True when the COPYR1 eye-catcher sits at bytes 9..12 (tape layout,
after the 8-byte prefix). -/
def copyr1EyeTape (r : List Nat) : Bool :=
  pygetInt (pySlice r 9 12) == 0xCA6D0F

/-- Parsed COPYR1 control record. -/
structure COPYR1 where
  type : PyStr
  block_length : Option Nat
  seg_length : Option Nat
  DS1DSORG : Nat
  DS1BLKL : Nat
  DS1LRECL : Nat
  DS1RECFM : PyStr
  DS1KEYL : Nat
  DS1OPTCD : Nat
  DS1SMSFG : Nat
  file_tape_blocksize : Nat
  DVAOPTS : Nat
  DVACLASS : Nat
  DVAUNIT : Nat
  DVAMAXRC : Nat
  DVACYL : Nat
  DVATRK : Nat
  DVATRKLN : Nat
  DVAOVHD : Nat
  num_header_records : Nat
  DS1REFD : Option PyStr
  DS1SCEXT : Option (List Nat)
  DS1SCALO : Option (List Nat)
  DS1LSTAR : Option (List Nat)
  DS1TRBAL : Option (List Nat)
  deriving DecidableEq, Repr

/-- True when an `Except` computation succeeded. -/
def exceptOk : Except e a → Bool
  | .ok _ => true
  | .error _ => false

/-- Field extraction part of `iebcopy_record_1` (source lines
1692-1744), applied to the record after optional prefix stripping. -/
def copyr1Fields (block_length seg_length : Option Nat) (fr : List Nat) :
    Except PyErr COPYR1 := do
  let b0 ← pyIndex fr 0
  let ctype := if b0 &&& 0x01 ≠ 0 then "PDSE".toList else "PDS".toList
  let recfm ← get_recfm (pySlice fr 10 12)
  let keyl ← pyIndex fr 11
  let optcd ← pyIndex fr 12
  let smsfg ← pyIndex fr 13
  let dvaclass ← pyIndex fr 18
  let dvaunit ← pyIndex fr 19
  if fr.drop 38 ≠ List.replicate 18 0 then
    let _ ← pyIndex fr 38
    let refd := pySlice fr 39 42
    let r0 ← pyIndex refd 0
    pure { type := ctype, block_length := block_length, seg_length := seg_length,
           DS1DSORG := pygetInt (pySlice fr 4 6), DS1BLKL := pygetInt (pySlice fr 6 8),
           DS1LRECL := pygetInt (pySlice fr 8 10), DS1RECFM := recfm,
           DS1KEYL := keyl, DS1OPTCD := optcd, DS1SMSFG := smsfg,
           file_tape_blocksize := pygetInt (pySlice fr 14 16),
           DVAOPTS := pygetInt (pySlice fr 16 18), DVACLASS := dvaclass,
           DVAUNIT := dvaunit, DVAMAXRC := pygetInt (pySlice fr 20 24),
           DVACYL := pygetInt (pySlice fr 24 26), DVATRK := pygetInt (pySlice fr 26 28),
           DVATRKLN := pygetInt (pySlice fr 28 30), DVAOVHD := pygetInt (pySlice fr 30 32),
           num_header_records := pygetInt (pySlice fr 36 38),
           DS1REFD := some (padz 2 (r0 % 100) ++ padz 4 (pygetInt (refd.drop 1))),
           DS1SCEXT := some (pySlice fr 42 45), DS1SCALO := some (pySlice fr 45 49),
           DS1LSTAR := some (pySlice fr 49 52), DS1TRBAL := some (pySlice fr 52 54) }
  else
    pure { type := ctype, block_length := block_length, seg_length := seg_length,
           DS1DSORG := pygetInt (pySlice fr 4 6), DS1BLKL := pygetInt (pySlice fr 6 8),
           DS1LRECL := pygetInt (pySlice fr 8 10), DS1RECFM := recfm,
           DS1KEYL := keyl, DS1OPTCD := optcd, DS1SMSFG := smsfg,
           file_tape_blocksize := pygetInt (pySlice fr 14 16),
           DVAOPTS := pygetInt (pySlice fr 16 18), DVACLASS := dvaclass,
           DVAUNIT := dvaunit, DVAMAXRC := pygetInt (pySlice fr 20 24),
           DVACYL := pygetInt (pySlice fr 24 26), DVATRK := pygetInt (pySlice fr 26 28),
           DVATRKLN := pygetInt (pySlice fr 28 30), DVAOVHD := pygetInt (pySlice fr 30 32),
           num_header_records := pygetInt (pySlice fr 36 38),
           DS1REFD := none, DS1SCEXT := none, DS1SCALO := none,
           DS1LSTAR := none, DS1TRBAL := none }

/-- Source: `xmilib.py` `iebcopy_record_1` (lines 1671-1744).  Raises
when the eye-catcher is at neither candidate offset or when the whole
record is longer than 64 bytes; strips an 8-byte prefix when the
eye-catcher is not at bytes 1..4; single-byte accesses raise
`IndexError` when the record is too short. -/
def iebcopy_record_1 (first_record : List Nat) : Except PyErr COPYR1 := do
  if copyr1EyeXmit first_record = false ∧ copyr1EyeTape first_record = false then
    throw .exc
  if first_record.length > 64 then
    throw .exc
  if copyr1EyeXmit first_record = false then
    copyr1Fields (some (pygetInt (pySlice first_record 0 2)))
      (some (pygetInt (pySlice first_record 4 6))) (first_record.drop 8)
  else
    copyr1Fields none none first_record

/-- Parsed COPYR2 control record. -/
structure COPYR2 where
  deb : List Nat
  extents : List (List Nat)
  deriving DecidableEq, Repr

/-- Source: `xmilib.py` `iebcopy_record_2` (lines 1746-1758).  The DEB
head is bytes 0..16; the sixteen extents are taken by
`range(0, 256, 16)`, i.e. bytes `16*i .. 16*i+16` for `i = 0..15`
(the over-length branch raises, via a `NameError` in the source). -/
def iebcopy_record_2 (second_record : List Nat) : Except PyErr COPYR2 :=
  if second_record.length > 276 then .error .nameErr
  else .ok { deb := pySlice second_record 0 16,
             extents := (List.range 16).map fun i =>
               pySlice second_record (16 * i) (16 * i + 16) }

/-- ASCII decimal digit test. -/
def isDigitC (c : Char) : Bool :=
  ('0' ≤ c) && (c ≤ '9')

/-- Value of an ASCII decimal digit. -/
def digitVal (c : Char) : Nat :=
  c.toNat - 48

/-- All characters are ASCII decimal digits. -/
def allDigits (l : PyStr) : Bool :=
  l.all isDigitC

/-- Decimal value of a digit string. -/
def digitsVal (l : PyStr) : Nat :=
  l.foldl (fun a c => a * 10 + digitVal c) 0

/-- Proleptic-Gregorian ordinal of January 1st of a year (model of
Python `datetime.date(y, 1, 1).toordinal()`). -/
def ordJan1 (y : Nat) : Nat :=
  1 + 365 * (y - 1) + (y - 1) / 4 - (y - 1) / 100 + (y - 1) / 400

/-- Proleptic-Gregorian calendar date of an ordinal day (model of
Python `datetime.date.fromordinal`), returning `(year, month, day)`. -/
def civilFromOrd (o : Nat) : Nat × Nat × Nat :=
  let z := o + 305
  let era := z / 146097
  let doe := z % 146097
  let yoe := (doe - doe / 1460 + doe / 36524 - doe / 146096) / 365
  let doy := doe - (365 * yoe + yoe / 4 - yoe / 100)
  let mp := (5 * doy + 2) / 153
  let d := doy - (153 * mp + 2) / 5 + 1
  let m := (mp + 2) % 12 + 1
  let y := yoe + era * 400 + (if m ≤ 2 then 1 else 0)
  (y, m, d)

/-- Model of `datetime.isoformat(timespec='microseconds')` for a
datetime with zero microseconds. -/
def isoDT (y mo d h mi s : Nat) : PyStr :=
  padz 4 y ++ ['-'] ++ padz 2 mo ++ ['-'] ++ padz 2 d ++ ['T'] ++
  padz 2 h ++ [':'] ++ padz 2 mi ++ [':'] ++ padz 2 s ++ ".000000".toList

/-- A complete ISO-8601 timestamp with microsecond precision: the
fixed-width `YYYY-MM-DDTHH:MM:SS.ffffff` shape. -/
def IsIsoMicro (s : PyStr) : Prop :=
  ∃ y mo d h mi sec, y ≤ 9999 ∧ mo ≤ 99 ∧ d ≤ 99 ∧ h ≤ 99 ∧ mi ≤ 99 ∧ sec ≤ 99 ∧
    s = isoDT y mo d h mi sec

/-- Shared tail of the `strptime` models: builds the date from a year
and a day-of-year (with Python rollover past December 31st), failing
when the year is 0 or when the resulting date leaves the Python
`datetime` range (year above 9999). -/
def spFinishYj (year j h mi s : Nat) : Option PyStr :=
  if year = 0 then none
  else
    let c := civilFromOrd (ordJan1 year + j - 1)
    if 9999 < c.1 then none
    else some (isoDT c.1 c.2.1 c.2.2 h mi s)

/-- Model of `datetime.strptime(s, '%Y%j%H%M%S')` followed by
`isoformat(timespec='microseconds')`: the regular expressions of
CPython `_strptime` must consume the whole string, which on this format
forces 4 year digits, 3 day-of-year digits in 001..366, and two digits
each for hour (00..23), minute and second (00..59). -/
def spParseYjHMS (s : PyStr) : Option PyStr :=
  if s.length = 13 ∧ allDigits (s.take 4) = true ∧
     allDigits ((s.drop 4).take 3) = true ∧
     1 ≤ digitsVal ((s.drop 4).take 3) ∧ digitsVal ((s.drop 4).take 3) ≤ 366 ∧
     allDigits ((s.drop 7).take 2) = true ∧ digitsVal ((s.drop 7).take 2) ≤ 23 ∧
     allDigits ((s.drop 9).take 2) = true ∧ digitsVal ((s.drop 9).take 2) ≤ 59 ∧
     allDigits ((s.drop 11).take 2) = true ∧ digitsVal ((s.drop 11).take 2) ≤ 59 then
    spFinishYj (digitsVal (s.take 4)) (digitsVal ((s.drop 4).take 3))
      (digitsVal ((s.drop 7).take 2)) (digitsVal ((s.drop 9).take 2))
      (digitsVal ((s.drop 11).take 2))
  else none

/-- Model of `datetime.strptime(s, '%Y%j')` followed by
`isoformat(timespec='microseconds')`: 4 year digits then a 1..3 digit
day-of-year in 1..366 consuming the rest of the string. -/
def spParseYj (s : PyStr) : Option PyStr :=
  if s.length ≤ 7 ∧ 5 ≤ s.length ∧ allDigits (s.take 4) = true ∧
     allDigits (s.drop 4) = true ∧
     1 ≤ digitsVal (s.drop 4) ∧ digitsVal (s.drop 4) ≤ 366 then
    spFinishYj (digitsVal (s.take 4)) (digitsVal (s.drop 4)) 0 0 0
  else none

/-- Source: `xmilib.py` `ispf_date` (lines 1122-1148).  Decodes a
packed-decimal ISPF date; a `strptime` failure is caught and yields the
empty string, while too-short inputs raise `IndexError` before the
`try` block. -/
def ispf_date (ispfdate : List Nat) (seconds : Nat) : Except PyErr PyStr := do
  let b0 ← pyIndex ispfdate 0
  let b1 ← pyIndex ispfdate 1
  let b2 ← pyIndex ispfdate 2
  let b3 ← pyIndex ispfdate 3
  let century := 19 + b0
  let year := hex2 b1
  let day0 := hex2 b2 ++ (hex2 b3).take 1
  let day := if day0 = "000".toList then "001".toList else day0
  let hm ← if 4 < ispfdate.length then do
      let b4 ← pyIndex ispfdate 4
      let b5 ← pyIndex ispfdate 5
      pure (hex2 b4, hex2 b5)
    else
      pure ("00".toList, "00".toList)
  let ss := if seconds ≠ 0 then hex2 seconds else "00".toList
  let date := natStr century ++ year ++ day ++ hm.1 ++ hm.2 ++ ss
  match spParseYjHMS date with
  | some iso => pure iso
  | none => pure []

/-- Source: `xmilib.py` `get_tape_date` (lines 1646-1659).  Decodes a
`cyyddd` tape date; there is no exception handling, so a non-digit
century byte or an unparseable date raises out of the function. -/
def get_tape_date (tape_date : PyStr) : Except PyErr PyStr := do
  let c0 ← pyIndex tape_date 0
  let s ←
    if c0 = ' ' then pure ('1' :: '9' :: tape_date.drop 1)
    else if isDigitC c0 then pure (natStr (20 + digitVal c0) ++ tape_date.drop 1)
    else throw .valueErr
  let s := if s.getLastD ' ' = '0' then s.dropLast ++ ['1'] else s
  match spParseYj s with
  | some iso => pure iso
  | none => throw .valueErr

/-- Source: `xmilib.py` `convert_text_file` (lines 1037-1048), loop
body: one line of the fixed-record splitter, at character offset `i`.
Python slices here can carry negative bounds when `recl < 8`. -/
def ctfLine (asciifile : PyStr) (recl : Nat) (unnum : Bool) (i : Nat) : PyStr :=
  if pyIsNumeric (pySliceI asciifile ((i : Int) + (recl : Int) - 8) ((i : Int) + (recl : Int))) && unnum then
    pyRstrip (pySliceI asciifile (i : Int) ((i : Int) + (recl : Int) - 8))
  else
    pyRstrip (pySliceI asciifile (i : Int) ((i : Int) + (recl : Int)))

/-- Fuel-driven loop of `convert_text_file`: `for i in
range(0, len(asciifile), recl)`. -/
def ctfGo (asciifile : PyStr) (recl : Nat) (unnum : Bool) : Nat → Nat → List PyStr
  | 0, _ => []
  | fuel + 1, i =>
    if i < asciifile.length then
      ctfLine asciifile recl unnum i :: ctfGo asciifile recl unnum fuel (i + recl)
    else []

/-- Source: `xmilib.py` `convert_text_file` (lines 1037-1048): decode
EBCDIC, split into `recl`-sized lines (stripping a numeric
sequence-number column when `unnum`), right-strip each line, join with
newlines and terminate with a newline. -/
def convert_text_file (ebcdic_text : List Nat) (recl : Nat) (unnum : Bool) : PyStr :=
  let asciifile := ebcdicDecode ebcdic_text
  if recl < 1 then asciifile ++ ['\n']
  else List.intercalate ['\n'] (ctfGo asciifile recl unnum (asciifile.length + 1) 0) ++ ['\n']

/-- Fixed-width chunking of a string, as the spec describes it. -/
def specChunksGo (r : Nat) : Nat → PyStr → List PyStr
  | 0, _ => []
  | fuel + 1, s => if s.isEmpty then [] else s.take r :: specChunksGo r fuel (s.drop r)

/-- Fixed-width chunks of size `r`. -/
def specChunks (s : PyStr) (r : Nat) : List PyStr :=
  specChunksGo r (s.length + 1) s

/-- Spec-side line rule, amended: when `unnum` is on and the characters
of the line from position `r - 8` on are nonempty and all numeric
(Python `str.isnumeric`), strip them; then right-trim. -/
def specLineStrip (r : Nat) (unnum : Bool) (c : PyStr) : PyStr :=
  if unnum && pyIsNumeric (c.drop (r - 8)) then pyRstrip (c.take (r - 8))
  else pyRstrip c

/-- Spec-side conversion, amended claim: chunk, per-line strip, join. -/
def convertSpecAmended (e : List Nat) (r : Nat) (unnum : Bool) : PyStr :=
  List.intercalate ['\n'] ((specChunks (ebcdicDecode e) r).map (specLineStrip r unnum)) ++ ['\n']

/-- Spec-side line rule exactly as claim C7 states it: when `unnum` is
on and the last 8 characters of the line are ASCII digits, strip those
8 characters; then right-trim. -/
def specLineClaim (unnum : Bool) (c : PyStr) : PyStr :=
  if unnum && decide (8 ≤ c.length) && allDigits (c.drop (c.length - 8)) then
    pyRstrip (c.take (c.length - 8))
  else pyRstrip c

/-- Spec-side conversion exactly as claim C7 states it. -/
def convertSpecClaimed (e : List Nat) (r : Nat) (unnum : Bool) : PyStr :=
  List.intercalate ['\n'] ((specChunks (ebcdicDecode e) r).map (specLineClaim unnum)) ++ ['\n']

/-- ISPF statistics block attached to a PDS directory member. -/
structure IspfStats where
  version : PyStr
  flags : Nat
  createdate : PyStr
  modifydate : PyStr
  lines : Nat
  newlines : Nat
  modlines : Nat
  user : PyStr
  deriving DecidableEq, Repr

/-- One parsed PDS directory member entry. -/
structure DirEntry where
  ttr : Nat
  aliasFlag : Bool
  halfwords : Nat
  notes : Nat
  parms : List Nat
  ispf : Option IspfStats
  deriving DecidableEq, Repr

/-- Result of parsing one directory entry: the all-0xFF terminator or a
member entry.  (The source stores `ispf = False` instead of a block;
modelled as `none`.) -/
inductive MemberParse where
  | last
  | entry (name : PyStr) (e : DirEntry)
  deriving DecidableEq, Repr

/-- Source: `xmilib.py` `get_members_info` (lines 1810-1847), the body
that parses one member entry of a directory block at offset `loc`. -/
def memberEntryAt (info : List Nat) (loc : Nat) : Except PyErr MemberParse := do
  let name := pyRstrip (ebcdicDecode (pySlice info loc (loc + 8)))
  if pySlice info loc (loc + 8) = List.replicate 8 0xFF then
    pure .last
  else
    let flagByte ← pyIndex info (loc + 11)
    let ttr := pygetInt (pySlice info (loc + 8) (loc + 11))
    let halfwords := (flagByte &&& 0x1F) * 2
    let notes := (flagByte &&& 0x60) >>> 5
    let parms := pySlice info (loc + 12) (loc + 12 + halfwords)
    if 30 ≤ parms.length ∧ notes = 0 then
      let createdate ← ispf_date (pySlice parms 4 8) 0
      let modifydate ← ispf_date (pySlice parms 8 14) (parms.getD 3 0)
      let ispf0 : IspfStats :=
        { version := padz 2 (parms.getD 0 0) ++ ['.'] ++ padz 2 (parms.getD 1 0),
          flags := parms.getD 2 0,
          createdate := createdate, modifydate := modifydate,
          lines := pygetInt (pySlice parms 14 16),
          newlines := pygetInt (pySlice parms 16 18),
          modlines := pygetInt (pySlice parms 18 20),
          user := pyRstrip (ebcdicDecode (pySlice parms 20 28)) }
      let ispf1 := if ispf0.flags &&& 0x10 = 0x10 then
          { ispf0 with
            lines := pygetInt (pySlice parms 28 32),
            newlines := pygetInt (pySlice parms 32 36),
            modlines := pygetInt (pySlice parms 36 40) }
        else ispf0
      pure (.entry name
        { ttr := ttr, aliasFlag := flagByte &&& 0x80 == 0x80, halfwords := halfwords,
          notes := notes, parms := parms, ispf := some ispf1 })
    else
      pure (.entry name
        { ttr := ttr, aliasFlag := flagByte &&& 0x80 == 0x80, halfwords := halfwords,
          notes := notes, parms := parms, ispf := none })

/-- Concrete directory entry bytes for evaluating `memberEntryAt`:
member "AAAAAAAA", TTR 1, flag byte 0x14 (no alias, notes 0, 40 bytes
of user data), ISPF flags 0x10 with 32-bit trailing line counts. -/
def c8info : List Nat :=
  [0xC1, 0xC1, 0xC1, 0xC1, 0xC1, 0xC1, 0xC1, 0xC1, 0x00, 0x00, 0x01, 0x14,
   0x01, 0x02, 0x10, 0x00, 0x00, 0x87, 0x15, 0x50, 0x00, 0x87, 0x15, 0x50,
   0x12, 0x30, 0x00, 0x05, 0x00, 0x06, 0x00, 0x07, 0xC1, 0xC1, 0xC1, 0xC1,
   0xC1, 0xC1, 0xC1, 0xC1, 0x00, 0x00, 0x00, 0x09, 0x00, 0x00, 0x00, 0x0A,
   0x00, 0x00, 0x00, 0x0B]

/-- The member entry that `memberEntryAt c8info 0` produces. -/
def c8entry : DirEntry :=
  { ttr := 1, aliasFlag := false, halfwords := 40, notes := 0,
    parms := c8info.drop 12,
    ispf := some
      { version := "01.02".toList, flags := 0x10,
        createdate := "1987-06-04T00:00:00.000000".toList,
        modifydate := "1987-06-04T12:30:00.000000".toList,
        lines := 9, newlines := 10, modlines := 11,
        user := "AAAAAAAA".toList } }

/-- The `(ttr, alias)` projection of a member record, the fields read
and written by the alias-promotion pass of `process_blocks`. -/
structure PBMember where
  ttr : Nat
  aliasFlag : Bool
  deriving DecidableEq, Repr

/-- Last element of a list satisfying a predicate. -/
def lastWith (f : α → Bool) : List α → Option α
  | [] => none
  | x :: t =>
    match lastWith f t with
    | some y => some y
    | none => if f x then some x else none

/-- Source: `xmilib.py` `process_blocks` (lines 1888-1894): build the
`ttrs` (non-alias) and `aliases` dicts, keyed by TTR, by one pass over
the members in directory order; a repeated TTR overwrites the value. -/
def pbBuildGo : List (PyStr × PBMember) → List (Nat × PyStr) → List (Nat × PyStr) →
    List (Nat × PyStr) × List (Nat × PyStr)
  | [], ttrs, als => (ttrs, als)
  | (n, e) :: rest, ttrs, als =>
    if e.aliasFlag then pbBuildGo rest ttrs (dictSet als e.ttr n)
    else pbBuildGo rest (dictSet ttrs e.ttr n) als

/-- In-place update of the alias flag of the member named `nm`
(Python `dsn['members'][nm]['alias'] = b`). -/
def updAlias : List (PyStr × PBMember) → PyStr → Bool → List (PyStr × PBMember)
  | [], _, _ => []
  | (k, e) :: rest, nm, b =>
    if k = nm then (k, { e with aliasFlag := b }) :: rest
    else (k, e) :: updAlias rest nm b

/-- Source: `xmilib.py` `process_blocks` (lines 1896-1902): for each
TTR in the aliases dict, if no non-alias member owns it, record the
alias member as owner and clear its alias flag.  (The inner lookup of
the member by name cannot fail, since alias values are member names;
the unreachable branch leaves the state unchanged.) -/
def pbLoop : List (Nat × PyStr) → List (Nat × PyStr) → List (PyStr × PBMember) →
    List (Nat × PyStr) × List (PyStr × PBMember)
  | [], ttrs, ms => (ttrs, ms)
  | (a, nm) :: rest, ttrs, ms =>
    match dictGet ttrs a with
    | some _ => pbLoop rest ttrs ms
    | none =>
      match dictGet ms nm with
      | none => pbLoop rest ttrs ms
      | some e => pbLoop rest (dictSet ttrs e.ttr nm) (updAlias ms nm false)

/-- Source: `xmilib.py` `process_blocks` (lines 1884-1902): the full
alias-promotion pass over the member table. -/
def process_blocks_alias_pass (ms : List (PyStr × PBMember)) : List (PyStr × PBMember) :=
  let built := pbBuildGo ms [] []
  (pbLoop built.2 built.1 ms).2

/-- A member record as seen by the inspection facade: optional TTR
(synthetic DELETED entries lack one), alias flag, optional decoded text
and optional raw data (presence of the dict keys). -/
structure FMember where
  ttr : Option Nat
  aliasFlag : Bool
  text : Option PyStr
  data : Option (List Nat)
  deriving DecidableEq, Repr

/-- Value returned by `get_member_decoded`: decoded text or raw bytes. -/
inductive MVal where
  | txt (s : PyStr)
  | bin (b : List Nat)
  deriving DecidableEq, Repr

/-- Source: `xmilib.py` `is_alias` (lines 671-676). -/
def is_alias (ms : List (PyStr × FMember)) (member : PyStr) : Except PyErr Bool :=
  match dictGet ms member with
  | none => .error .keyErr
  | some e => .ok e.aliasFlag

/-- Source: `xmilib.py` `get_alias` (lines 719-734): scan the member
table in order for a member that has a TTR, is not an alias, and shares
the alias member's TTR; `None` when no such member exists. -/
def get_alias (ms : List (PyStr × FMember)) (member : PyStr) :
    Except PyErr (Option PyStr) :=
  match dictGet ms member with
  | none => .error .keyErr
  | some e =>
    match e.ttr with
    | none => .error .keyErr
    | some alias_ttr =>
      .ok ((ms.find? fun p =>
        p.2.ttr.isSome && !p.2.aliasFlag && p.2.ttr == some alias_ttr).map Prod.fst)

/-- Source: `xmilib.py` `get_member_decoded` (lines 580-600): resolve
the alias first (a `None` target turns into a failing `None` dict
lookup), then return the stored text, else the stored data, else empty
bytes. -/
def get_member_decoded (ms : List (PyStr × FMember)) (member : PyStr) :
    Except PyErr MVal := do
  let al ← is_alias ms member
  let key ← if al then get_alias ms member else pure (some member)
  match key with
  | none => throw .keyErr
  | some m2 =>
    match dictGet ms m2 with
    | none => throw .keyErr
    | some rfile =>
      match rfile.text with
      | some t2 => pure (.txt t2)
      | none =>
        match rfile.data with
        | some d2 => pure (.bin d2)
        | none => pure (.bin [])

/-- Value stored for a text unit: decoded character string, decimal
integer, or raw hex bytes. -/
inductive TUVal where
  | str (s : PyStr)
  | int (n : Nat)
  | bytes (b : List Nat)
  deriving DecidableEq, Repr

/-- A text-unit dictionary, name to value, in insertion order. -/
abbrev TU := List (PyStr × TUVal)

/-- Text-unit key types. -/
inductive TKType where
  | character
  | decimal
  | hex
  deriving DecidableEq, Repr

/-- Source: `xmilib.py` `text_keys` table (lines 70-99): key to
(mnemonic, type). -/
def textKeyInfo (k : Nat) : Option (PyStr × TKType) :=
  if k = 0x0001 then some ("INMDDNAM".toList, .character)
  else if k = 0x0002 then some ("INMDSNAM".toList, .character)
  else if k = 0x0003 then some ("INMMEMBR".toList, .character)
  else if k = 0x000B then some ("INMSECND".toList, .decimal)
  else if k = 0x000C then some ("INMDIR".toList, .decimal)
  else if k = 0x0022 then some ("INMEXPDT".toList, .character)
  else if k = 0x0028 then some ("INMTERM".toList, .character)
  else if k = 0x0030 then some ("INMBLKSZ".toList, .decimal)
  else if k = 0x003C then some ("INMDSORG".toList, .hex)
  else if k = 0x0042 then some ("INMLRECL".toList, .decimal)
  else if k = 0x0049 then some ("INMRECFM".toList, .hex)
  else if k = 0x1001 then some ("INMTNODE".toList, .character)
  else if k = 0x1002 then some ("INMTUID".toList, .character)
  else if k = 0x1011 then some ("INMFNODE".toList, .character)
  else if k = 0x1012 then some ("INMFUID".toList, .character)
  else if k = 0x1020 then some ("INMLREF".toList, .character)
  else if k = 0x1021 then some ("INMLCHG".toList, .character)
  else if k = 0x1022 then some ("INMCREAT".toList, .character)
  else if k = 0x1023 then some ("INMFVERS".toList, .character)
  else if k = 0x1024 then some ("INMFTIME".toList, .character)
  else if k = 0x1025 then some ("INMTTIME".toList, .character)
  else if k = 0x1026 then some ("INMFACK".toList, .character)
  else if k = 0x1027 then some ("INMERRCD".toList, .character)
  else if k = 0x1028 then some ("INMUTILN".toList, .character)
  else if k = 0x1029 then some ("INMUSERP".toList, .character)
  else if k = 0x102A then some ("INMRECCT".toList, .character)
  else if k = 0x102C then some ("INMSIZE".toList, .decimal)
  else if k = 0x102F then some ("INMNUMF".toList, .decimal)
  else if k = 0x8012 then some ("INMTYPE".toList, .hex)
  else none

/-- Outcome of `text_units`: the dictionary and the message flag, an
exception, or divergence (the source loop does not advance on a
zero-count unit with an unrecognized key). -/
inductive TUOut where
  | ok (tu : TU) (msg : Bool)
  | err (e : PyErr)
  | stuck
  deriving DecidableEq, Repr

/-- Source: `xmilib.py` `text_units` (lines 2102-2160), the inner
`for i in range(0, num)` loop over the items of one text unit.  The
first item's length is at `loc+4`, later items carry their own two-byte
length; a decoded INMDSNAM item is appended (dot-terminated) to the
accumulator, and once the accumulator is nonempty every stored value is
replaced by the accumulated name without its trailing dot. -/
def tuItemsGo (recs : List Nat) (key : Nat) :
    Nat → Bool → Nat → TU → PyStr → Nat × TU × PyStr
  | 0, _, loc, tu, acc => (loc, tu, acc)
  | n + 1, first, loc, tu, acc =>
    let tlen := if first then pygetInt (pySlice recs (loc + 4) (loc + 6))
                else pygetInt (pySlice recs loc (loc + 2))
    let item := if first then pySlice recs (loc + 6) (loc + 6 + tlen)
                else pySlice recs (loc + 2) (loc + 2 + tlen)
    let loc2 := if first then loc + 6 + tlen else loc + 2 + tlen
    match textKeyInfo key with
    | none => tuItemsGo recs key n false loc2 tu acc
    | some (nm, ty) =>
      let acc2 := if ty = TKType.character ∧ nm = "INMDSNAM".toList then
          acc ++ ebcdicDecode item ++ ['.'] else acc
      let value : TUVal :=
        match ty with
        | .character => .str (ebcdicDecode item)
        | .decimal => .int (pygetInt item)
        | .hex =>
          if nm = "INMTYPE".toList then
            if pygetInt item = 0x80 then .str "Data Library".toList
            else if pygetInt item = 0x40 then .str "Program Library".toList
            else .str "None".toList
          else .bytes item
      let value := if acc2 ≠ [] then TUVal.str acc2.dropLast else value
      tuItemsGo recs key n false loc2 (dictSet tu nm value) acc2

/-- Source: `xmilib.py` `text_units` (lines 2070-2162), the outer loop:
read a two-byte key and item count (`struct.unpack` raises on a short
slice), handle the empty INMFACK/INMTERM units (the latter sets the
message flag), then process the items. -/
def textUnitsGo (recs : List Nat) :
    Nat → Nat → TU → PyStr → Bool → TUOut
  | 0, _, _, _, _ => .stuck
  | fuel + 1, loc, tu, acc, msg =>
    if loc < recs.length then
      if (pySlice recs loc (loc + 2)).length ≠ 2 then .err .structErr
      else if (pySlice recs (loc + 2) (loc + 4)).length ≠ 2 then .err .structErr
      else
        let key := pygetInt (pySlice recs loc (loc + 2))
        let num := pygetInt (pySlice recs (loc + 2) (loc + 4))
        let loc1 := if key = 0x1026 ∧ num = 0 then loc + 4 else loc
        let loc2 := if key = 0x0028 ∧ num = 0 then loc1 + 4 else loc1
        let msg2 := if key = 0x0028 ∧ num = 0 then true else msg
        match tuItemsGo recs key num true loc2 tu acc with
        | (loc3, tu3, acc3) => textUnitsGo recs fuel loc3 tu3 acc3 msg2
    else .ok tu msg

/-- Source: `xmilib.py` `text_units` entry point (loc 0, empty dict,
empty dataset-name accumulator, current message flag). -/
def text_units (recs : List Nat) (msg : Bool) : TUOut :=
  textUnitsGo recs (recs.length + 1) 0 [] [] msg

/-- Gregorian leap year test (model of the `calendar` module rule used
by `datetime`). -/
def isLeap (y : Nat) : Bool :=
  y % 400 == 0 || (y % 4 == 0 && !(y % 100 == 0))

/-- Days in a month of the proleptic-Gregorian calendar, as enforced by
the `datetime.datetime` constructor. -/
def daysInMonth (y m : Nat) : Nat :=
  if m = 2 then (if isLeap y then 29 else 28)
  else if m = 4 ∨ m = 6 ∨ m = 9 ∨ m = 11 then 30 else 31

/-- Model of `datetime.isoformat(timespec='microseconds')` with an
explicit microsecond count. -/
def isoDTus (y mo d h mi s us : Nat) : PyStr :=
  padz 4 y ++ ['-'] ++ padz 2 mo ++ ['-'] ++ padz 2 d ++ ['T'] ++
  padz 2 h ++ [':'] ++ padz 2 mi ++ [':'] ++ padz 2 s ++ ['.'] ++ padz 6 us

/-- Model of `datetime.strptime(s, '%Y%m%d%H%M%S%f')` followed by
`isoformat(timespec='microseconds')`, for strings over the codepage
1140 repertoire (whose only `\d`-matching characters are the ASCII
digits).  The CPython `_strptime` regex must consume the whole string;
its field patterns admit at most two characters each (at most six for
`%f`), so only strings of exactly 20 characters can match, split
4/2/2/2/2/2/6.  The day field also admits a space followed by a nonzero
digit.  Range checks of the regex (month 1-12, day 1-31, hour 0-23,
minute 0-59, second 0-61) are combined here with those of the
`datetime` constructor (year at least 1, second 0-59, day at most the
month length). -/
def spParseFTime (s : PyStr) : Option PyStr :=
  if s.length = 20 then
    let dPart := (s.drop 6).take 2
    let day : Option Nat :=
      if allDigits dPart = true then some (digitsVal dPart)
      else match dPart with
        | [' ', c] => if '1' ≤ c ∧ c ≤ '9' then some (digitVal c) else none
        | _ => none
    if allDigits (s.take 6) = true ∧ allDigits (s.drop 8) = true then
      match day with
      | none => none
      | some d =>
        let y := digitsVal (s.take 4)
        let m := digitsVal ((s.drop 4).take 2)
        let hh := digitsVal ((s.drop 8).take 2)
        let mi := digitsVal ((s.drop 10).take 2)
        let ss := digitsVal ((s.drop 12).take 2)
        let us := digitsVal (s.drop 14)
        if 1 ≤ m ∧ m ≤ 12 ∧ 1 ≤ d ∧ d ≤ 31 ∧ hh ≤ 23 ∧ mi ≤ 59 ∧ ss ≤ 59 ∧
           1 ≤ y ∧ d ≤ daysInMonth y m then
          some (isoDTus y m d hh mi ss us)
        else none
    else none
  else none

/-- The mutable state that `parse_xmi` (lines 1171-1249) builds up: the
`self.xmit` dictionary contents (`INMR01`, the numbered `INMR02` and
`INMR03` entries, the optional `message` entry and the per-dataset-name
`file` data lists, where an absent dictionary key is an empty list or
`none`), the `record_data` accumulator, `self.filelocation`, `self.msg`
and the `INMR02`/`INMR03` counters. -/
structure XSt where
  inmr01 : Option TU
  inmr02 : List (Nat × TU)
  inmr03 : List (Nat × TU)
  msgFile : Option (List Nat × TUVal)
  msgText : Option PyStr
  files : List (TUVal × List (List Nat))
  recData : List Nat
  fileloc : Nat
  msg : Bool
  n02 : Nat
  n03 : Nat
  deriving DecidableEq, Repr

/-- The state of a fresh `XmiFile` object (`__init__`, lines 116-124):
no records seen, `filelocation = 1`, `msg = False`. -/
def xst0 : XSt :=
  ⟨none, [], [], none, none, [], [], 1, false, 0, 0⟩

/-- Result of `parse_xmi`: normal loop exit (after `convert_message`),
early return at an `INMR06` record, a raised exception, or divergence
(the loop does not advance on a zero-length non-control section). -/
inductive XOut where
  | fin (st : XSt)
  | done6 (st : XSt)
  | err (e : PyErr)
  | stuck
  deriving DecidableEq, Repr

/-- Result of one `parse_INMR0x` helper: updated state, exception, or
divergence inside `text_units`. -/
inductive XRes where
  | ok (st : XSt)
  | err (e : PyErr)
  | stuck
  deriving DecidableEq, Repr

/-- Source: `xmilib.py` `get_dsorg` (lines 1059-1080) applied to a
stored text-unit value: on bytes `get_int` converts them, on an `int`
the `int.from_bytes` raises `TypeError` which is caught and leaves the
value, and on a `str` the caught `TypeError` leaves the string, whose
later use in `0x8000 & file_dsorg` raises an uncaught `TypeError`. -/
def get_dsorgV : TUVal → Except PyErr TUVal
  | .bytes b => .ok (.str (get_dsorg (pygetInt b)))
  | .int n => .ok (.str (get_dsorg n))
  | .str _ => .error .typeErr

/-- Source: `xmilib.py` `get_recfm` (lines 1082-1108) applied to a
stored text-unit value: `recfm[0]` needs a nonempty sequence (str or
bytes), and the bit tests on a character of a `str` raise `TypeError`;
an `int` is not subscriptable. -/
def get_recfmV : TUVal → Except PyErr TUVal
  | .bytes b =>
    match get_recfm b with
    | .ok s => .ok (.str s)
    | .error e => .error e
  | .str [] => .error .indexErr
  | .str (_ :: _) => .error .typeErr
  | .int _ => .error .typeErr

/-- Source: `xmilib.py` `parse_INMR01` (lines 1335-1343): store the
text units, then when `INMFTIME` is present pad it to 20 characters
with zeros, reparse it with `strptime` (a failure propagates) and store
the ISO form.  A non-`str` `INMFTIME` value raises `TypeError` in the
padding expression. -/
def parseINMR01 (rec : List Nat) (st : XSt) : XRes :=
  match text_units rec st.msg with
  | .err e => .err e
  | .stuck => .stuck
  | .ok tu m2 =>
    let st2 : XSt := { st with inmr01 := some tu, msg := m2 }
    match dictGet tu "INMFTIME".toList with
    | none => .ok st2
    | some v =>
      match v with
      | .str s =>
        match spParseFTime (s ++ List.replicate (20 - s.length) '0') with
        | some iso =>
          .ok { st2 with inmr01 := some (dictSet tu "INMFTIME".toList (.str iso)) }
        | none => .err .valueErr
      | _ => .err .typeErr

/-- Source: `xmilib.py` `parse_INMR02` (lines 1346-1354): bump the
count, read the big-endian file number from the first four bytes
(`struct.unpack` raises on a short slice), run `text_units` on the
rest, then replace `INMDSORG` and `INMRECFM` (a missing key raises
`KeyError`) and add `numfile`. -/
def parseINMR02 (rec : List Nat) (st : XSt) : XRes :=
  let n := st.n02 + 1
  if (pySlice rec 0 4).length ≠ 4 then .err .structErr
  else
    let numfiles := pygetInt (pySlice rec 0 4)
    match text_units (rec.drop 4) st.msg with
    | .err e => .err e
    | .stuck => .stuck
    | .ok tu m2 =>
      match dictGet tu "INMDSORG".toList with
      | none => .err .keyErr
      | some dv =>
        match get_dsorgV dv with
        | .error e => .err e
        | .ok dv2 =>
          let tu2 := dictSet tu "INMDSORG".toList dv2
          match dictGet tu2 "INMRECFM".toList with
          | none => .err .keyErr
          | some rv =>
            match get_recfmV rv with
            | .error e => .err e
            | .ok rv2 =>
              let tu3 := dictSet (dictSet tu2 "INMRECFM".toList rv2)
                "numfile".toList (.int numfiles)
              .ok { st with n02 := n, msg := m2, inmr02 := dictSet st.inmr02 n tu3 }

/-- Source: `xmilib.py` `parse_INMR03` (lines 1357-1363): bump the
count, run `text_units` on the whole record, then replace `INMDSORG`
and `INMRECFM`. -/
def parseINMR03 (rec : List Nat) (st : XSt) : XRes :=
  let n := st.n03 + 1
  match text_units rec st.msg with
  | .err e => .err e
  | .stuck => .stuck
  | .ok tu m2 =>
    match dictGet tu "INMDSORG".toList with
    | none => .err .keyErr
    | some dv =>
      match get_dsorgV dv with
      | .error e => .err e
      | .ok dv2 =>
        let tu2 := dictSet tu "INMDSORG".toList dv2
        match dictGet tu2 "INMRECFM".toList with
        | none => .err .keyErr
        | some rv =>
          match get_recfmV rv with
          | .error e => .err e
          | .ok rv2 =>
            let tu3 := dictSet tu2 "INMRECFM".toList rv2
            .ok { st with n03 := n, msg := m2, inmr03 := dictSet st.inmr03 n tu3 }

/-- Source: `xmilib.py` `parse_xmi` (lines 1207-1225), the dataset-data
part of the non-control branch: resolve the dataset name from the
`INMR02` entry at `self.filelocation` (missing keys raise `KeyError`),
create its `file` entry on first sight, extend `record_data` with the
segment, and on a `0x40` flag append the accumulated record to the
dataset's data list and reset the accumulator. -/
def fileStep (flag : Nat) (seg : List Nat) (st : XSt) : Except PyErr XSt :=
  match dictGet st.inmr02 st.fileloc with
  | none => .error .keyErr
  | some tuf =>
    match dictGet tuf "INMDSNAM".toList with
    | none => .error .keyErr
    | some dsn =>
      let files := if dictGet st.files dsn = none then dictSet st.files dsn []
                   else st.files
      let rd := st.recData ++ seg
      if flag &&& 0x40 = 0x40 then
        match dictGet files dsn with
        | some dl => .ok { st with files := dictSet files dsn (dl ++ [rd]),
                                   recData := [] }
        | none => .error .keyErr
      else .ok { st with files := files, recData := rd }

/-- Source: `xmilib.py` `parse_xmi` (lines 1193-1225), the non-control
branch: with Python short-circuit evaluation, the guard
`'INMDSNAM' not in self.xmit['INMR02'][1] and self.msg and
len(self.xmit['INMR03']) < 2` raises `KeyError` when `INMR02` (or its
entry 1) is missing, and, once its first two conjuncts hold, when
`INMR03` is missing (an `INMR03` dictionary is never empty, so an empty
list models its absence); a true guard extends the message file (whose
`lrecl` is read from `INMR03` entry 1 on creation), a false one stores
dataset data. -/
def dataStep (flag : Nat) (seg : List Nat) (st : XSt) : Except PyErr XSt :=
  match dictGet st.inmr02 1 with
  | none => .error .keyErr
  | some tu1 =>
    if dictGet tu1 "INMDSNAM".toList = none ∧ st.msg = true then
      if st.inmr03.length = 0 then .error .keyErr
      else if st.inmr03.length < 2 then
        match st.msgFile with
        | none =>
          match dictGet st.inmr03 1 with
          | none => .error .keyErr
          | some tu3 =>
            match dictGet tu3 "INMLRECL".toList with
            | none => .error .keyErr
            | some lr => .ok { st with msgFile := some (seg, lr), fileloc := 2 }
        | some p => .ok { st with msgFile := some (p.1 ++ seg, p.2), fileloc := 2 }
      else fileStep flag seg st
    else fileStep flag seg st

/-- Source: `xmilib.py` `convert_message` (lines 1050-1057): without a
message flag nothing happens; otherwise the `message` entry must exist
(`KeyError`) and its file is converted with `convert_text_file`, whose
`recl < 1` comparison raises `TypeError` on a non-integer `lrecl`. -/
def convert_message (unnum : Bool) (st : XSt) : Except PyErr XSt :=
  if st.msg = false then .ok st
  else
    match st.msgFile with
    | none => .error .keyErr
    | some p =>
      match p.2 with
      | .int n => .ok { st with msgText := some (convert_text_file p.1 n unnum) }
      | _ => .error .typeErr

/-- The one-byte section length at `loc` (`get_int` of `b[loc:loc+1]`,
0 at the end of the buffer). -/
def secLen (input : List Nat) (loc : Nat) : Nat :=
  pygetInt (pySlice input loc (loc + 1))

/-- The flag byte at `loc + 1` (0 past the end of the buffer). -/
def flagOf (input : List Nat) (loc : Nat) : Nat :=
  pygetInt (pySlice input (loc + 1) (loc + 2))

/-- The decoded six-character control record type at `loc + 2`. -/
def rtypeOf (input : List Nat) (loc : Nat) : PyStr :=
  ebcdicDecode (pySlice input (loc + 2) (loc + 8))

/-- Whether the section at `loc` is an `INMR06` control record (the
condition under which `parse_xmi` returns). -/
def ins06 (input : List Nat) (loc : Nat) : Bool :=
  decide (flagOf input loc &&& 0x20 = 0x20 ∧ rtypeOf input loc = "INMR06".toList)

/-- One iteration of the `parse_xmi` while-loop: continue at a new
location with an updated state, or halt with a result.  Both outcomes
carry the least index past every input byte this section spans (the
two-byte section head plus the section body; control records always
span at least the eight bytes holding the record type). -/
inductive PStep where
  | cont (loc2 : Nat) (st2 : XSt) (need : Nat)
  | halt (r : XOut) (need : Nat)
  deriving DecidableEq, Repr

/-- The span bound carried by a `PStep`. -/
def needOf : PStep → Nat
  | .cont _ _ need => need
  | .halt _ need => need

/-- Source: `xmilib.py` `parse_xmi` (lines 1186-1244), one iteration of
the while-loop at `loc`: read the section length and flag, then either
handle a data section (flag bit `0x20` clear) or a control record
(dispatching on the decoded type, returning at `INMR06`), and advance
`loc` by the section length. -/
def pstep (input : List Nat) (loc : Nat) (st : XSt) : PStep :=
  let sl := secLen input loc
  let flag := flagOf input loc
  if flag &&& 0x20 ≠ 0x20 then
    let need := max (loc + 2) (loc + sl)
    match dataStep flag (pySlice input (loc + 2) (loc + sl)) st with
    | .error e => .halt (.err e) need
    | .ok st2 => .cont (loc + sl) st2 need
  else
    let need := max (loc + 8) (loc + sl)
    let rt := rtypeOf input loc
    if rt = "INMR01".toList then
      match parseINMR01 (pySlice input (loc + 8) (loc + sl)) st with
      | .ok st2 => .cont (loc + sl) st2 need
      | .err e => .halt (.err e) need
      | .stuck => .halt .stuck need
    else if rt = "INMR02".toList then
      match parseINMR02 (pySlice input (loc + 8) (loc + sl)) st with
      | .ok st2 => .cont (loc + sl) st2 need
      | .err e => .halt (.err e) need
      | .stuck => .halt .stuck need
    else if rt = "INMR03".toList then
      match parseINMR03 (pySlice input (loc + 8) (loc + sl)) st with
      | .ok st2 => .cont (loc + sl) st2 need
      | .err e => .halt (.err e) need
      | .stuck => .halt .stuck need
    else if rt = "INMR06".toList then .halt (.done6 st) need
    else .cont (loc + sl) st need

/-- Source: `xmilib.py` `parse_xmi` (lines 1186-1247), the while-loop
with explicit fuel (each Python iteration consumes one unit; the fuel
`length + 1` of `parse_xmi` is exhausted only by a non-advancing
section, on which the Python loop never terminates).  The extra `Nat`
accumulates the span bound of the visited sections. -/
def parseLoop (input : List Nat) (unnum : Bool) : Nat → Nat → XSt → Nat → XOut × Nat
  | 0, _, _, a => (.stuck, a)
  | fuel + 1, loc, st, a =>
    if loc < input.length then
      match pstep input loc st with
      | .halt r need => (r, max a need)
      | .cont loc2 st2 need => parseLoop input unnum fuel loc2 st2 (max a need)
    else
      match convert_message unnum st with
      | .ok st2 => (.fin st2, a)
      | .error e => (.err e, a)

/-- Source: `xmilib.py` `parse_xmi` (lines 1171-1249): check the
`INMR01` eye-catcher in bytes 2..8 (raising otherwise), then run the
while-loop from `loc = 0` on a fresh state.  Returns the outcome along
with the span bound of everything read (the header check spans 8
bytes). -/
def parse_xmi (input : List Nat) (unnum : Bool) : XOut × Nat :=
  if ebcdicDecode (pySlice input 2 8) = "INMR01".toList then
    parseLoop input unnum (input.length + 1) 0 xst0 8
  else (.err .exc, 8)

end Xmi

/-- C9: the RECFM decoder maps first byte 0x90 to "FB", 0x50 to "VB" and
0xC0 to "U"; the DSORG decoder (checking bits from high to low and
appending "U" for bit 0x0001) maps 0x4001 to "PSU" and 0x0200 to "PO". -/
theorem c9_recfm_dsorg_values :
    Xmi.get_recfm [0x90, 0x00] = .ok "FB".toList ∧
    Xmi.get_recfm [0x50, 0x00] = .ok "VB".toList ∧
    Xmi.get_recfm [0xC0, 0x00] = .ok "U".toList ∧
    Xmi.get_dsorg 0x4001 = "PSU".toList ∧
    Xmi.get_dsorg 0x0200 = "PO".toList := by
  decide

namespace Xmi

theorem exceptBind_ok (a : α) (f : α → Except ε β) :
    (Except.ok a >>= f : Except ε β) = f a := rfl

theorem exceptBind_err (e : ε) (f : α → Except ε β) :
    ((Except.error e : Except ε α) >>= f) = .error e := rfl

theorem pySlice_length (l : List Nat) (i j : Nat) :
    (pySlice l i j).length = min (j - i) (l.length - i) := by
  simp [pySlice]

theorem pyIndex_isOk {α : Type} (l : List α) (i : Nat) (h : i < l.length) :
    ∃ a, pyIndex l i = .ok a := by
  unfold pyIndex
  cases hd : l.drop i with
  | nil =>
    have : l.length - i = 0 := by
      have := congrArg List.length hd
      simpa using this
    omega
  | cons a t => exact ⟨a, rfl⟩

theorem get_recfm_isOk (r : List Nat) (h : r ≠ []) :
    ∃ s, get_recfm r = .ok s := by
  cases r with
  | nil => exact absurd rfl h
  | cons f t => exact ⟨_, rfl⟩

theorem pySlice_ne_nil (l : List Nat) (i j : Nat) (hi : i < l.length) (hj : i < j) :
    pySlice l i j ≠ [] := by
  intro hc
  have := congrArg List.length hc
  rw [pySlice_length] at this
  simp at this
  omega

theorem copyr1Fields_isOk (bl sl : Option Nat) (fr : List Nat)
    (hfr : 40 ≤ fr.length) :
    exceptOk (copyr1Fields bl sl fr) = true := by
  unfold copyr1Fields
  obtain ⟨b0, e0⟩ := pyIndex_isOk fr 0 (by omega)
  obtain ⟨rf, erf⟩ := get_recfm_isOk (pySlice fr 10 12) (pySlice_ne_nil fr 10 12 (by omega) (by omega))
  obtain ⟨a11, e11⟩ := pyIndex_isOk fr 11 (by omega)
  obtain ⟨a12, e12⟩ := pyIndex_isOk fr 12 (by omega)
  obtain ⟨a13, e13⟩ := pyIndex_isOk fr 13 (by omega)
  obtain ⟨a18, e18⟩ := pyIndex_isOk fr 18 (by omega)
  obtain ⟨a19, e19⟩ := pyIndex_isOk fr 19 (by omega)
  obtain ⟨a38, e38⟩ := pyIndex_isOk fr 38 (by omega)
  obtain ⟨r0, er0⟩ := pyIndex_isOk (pySlice fr 39 42) 0 (by rw [pySlice_length]; omega)
  rw [e0, exceptBind_ok, erf, exceptBind_ok, e11, exceptBind_ok, e12, exceptBind_ok,
      e13, exceptBind_ok, e18, exceptBind_ok, e19, exceptBind_ok]
  split
  · rw [e38, exceptBind_ok]
    dsimp only
    rw [er0, exceptBind_ok]
    rfl
  · rfl

end Xmi

/-- C4 counterexample: a 72-byte COPYR1 record carrying the tape
eye-catcher at bytes 9..12, whose structure after the 8-byte prefix is
exactly 64 bytes.  The claim says such a record is accepted; the code
rejects it because the 64-byte limit is applied to the whole record. -/
theorem c4_counterexample :
    Xmi.exceptOk (Xmi.iebcopy_record_1
      (List.replicate 9 0 ++ [0xCA, 0x6D, 0x0F] ++ List.replicate 60 0)) = false ∧
    Xmi.copyr1EyeTape (List.replicate 9 0 ++ [0xCA, 0x6D, 0x0F] ++ List.replicate 60 0) = true ∧
    (List.replicate 9 0 ++ [0xCA, 0x6D, 0x0F] ++ List.replicate 60 0).length = 72 := by
  decide

/-- C4 (amended): `iebcopy_record_1` fails exactly when the eye-catcher
0xCA6D0F is at neither candidate offset (bytes 1..4 nor 9..12) or the
whole record — including the 8-byte prefix when present — exceeds 64
bytes; in particular a tape COPYR1 whose structure is exactly 64 bytes
after its 8-byte prefix (72 bytes in all) is rejected.  The equivalence
is stated for records long enough that field extraction does not run
past the end (at least 40 bytes after any prefix stripping). -/
theorem c4_copyr1_failure_condition (r : List Nat)
    (h1 : Xmi.copyr1EyeXmit r = true → 40 ≤ r.length)
    (h2 : Xmi.copyr1EyeXmit r = false → Xmi.copyr1EyeTape r = true → 48 ≤ r.length) :
    Xmi.exceptOk (Xmi.iebcopy_record_1 r) = true ↔
      ((Xmi.copyr1EyeXmit r = true ∨ Xmi.copyr1EyeTape r = true) ∧ r.length ≤ 64) := by
  constructor
  · intro hok
    by_cases hx : Xmi.copyr1EyeXmit r = true
    · by_cases hlen : r.length ≤ 64
      · exact ⟨Or.inl hx, hlen⟩
      · exfalso
        unfold Xmi.iebcopy_record_1 at hok
        simp only [hx, show 64 < r.length by omega, if_true, Bool.true_eq_false,
          false_and, if_false, reduceIte] at hok
        exact Bool.false_ne_true hok
    · by_cases ht : Xmi.copyr1EyeTape r = true
      · by_cases hlen : r.length ≤ 64
        · exact ⟨Or.inr ht, hlen⟩
        · exfalso
          unfold Xmi.iebcopy_record_1 at hok
          simp only [hx, ht, show 64 < r.length by omega, if_true, Bool.true_eq_false,
            and_false, if_false, reduceIte] at hok
          exact Bool.false_ne_true hok
      · exfalso
        unfold Xmi.iebcopy_record_1 at hok
        simp only [Bool.not_eq_true] at hx ht
        simp only [hx, ht, and_self, if_true, reduceIte] at hok
        exact Bool.false_ne_true hok
  · rintro ⟨heye, hlen⟩
    have hguard : ¬(Xmi.copyr1EyeXmit r = false ∧ Xmi.copyr1EyeTape r = false) := by
      intro ⟨hx, ht⟩
      rcases heye with h | h
      · rw [hx] at h; exact Bool.false_ne_true h
      · rw [ht] at h; exact Bool.false_ne_true h
    have hlen2 : ¬(r.length > 64) := by omega
    unfold Xmi.iebcopy_record_1
    simp only [hguard, hlen2, if_false, reduceIte]
    by_cases hx : Xmi.copyr1EyeXmit r = true
    · rw [if_neg (by simp [hx])]
      exact Xmi.copyr1Fields_isOk _ _ _ (h1 hx)
    · simp only [Bool.not_eq_true] at hx
      have ht : Xmi.copyr1EyeTape r = true := by
        rcases heye with h | h
        · rw [hx] at h; exact absurd h Bool.false_ne_true
        · exact h
      rw [if_pos hx]
      apply Xmi.copyr1Fields_isOk
      have := h2 hx ht
      simp only [List.length_drop]
      omega

/-- C4 witness: a 56-byte XMIT COPYR1 with the eye-catcher at bytes
1..4 is accepted. -/
theorem c4_witness :
    Xmi.exceptOk (Xmi.iebcopy_record_1
      ([0x00, 0xCA, 0x6D, 0x0F] ++ List.replicate 52 0)) = true := by
  rw [c4_copyr1_failure_condition ([0x00, 0xCA, 0x6D, 0x0F] ++ List.replicate 52 0)
      (by decide) (by decide)]
  decide

/-- C3: on a concrete 276-byte COPYR2 record, the stored extents start
at byte 0 — the first extent equals the 16-byte DEB head — rather than
at byte 16 as the claim (and the documented record layout) states. -/
theorem c3_extents_overlap_deb :
    ((Xmi.iebcopy_record_2 ((List.range 276).map (· % 256))).toOption.map
        fun c => c.extents.headD []) =
      some (Xmi.pySlice ((List.range 276).map (· % 256)) 0 16) ∧
    ((Xmi.iebcopy_record_2 ((List.range 276).map (· % 256))).toOption.map
        Xmi.COPYR2.deb) =
      some (Xmi.pySlice ((List.range 276).map (· % 256)) 0 16) ∧
    Xmi.pySlice ((List.range 276).map (· % 256)) 0 16 ≠
      Xmi.pySlice ((List.range 276).map (· % 256)) 16 32 := by
  decide


namespace Xmi

theorem natStrGo_length (fuel : Nat) :
    ∀ n k, n < fuel → 1 ≤ k → n < 10 ^ k → (natStrGo fuel n).length ≤ k := by
  induction fuel with
  | zero => intro n k h; omega
  | succ f ih =>
    intro n k hn hk hp
    rw [natStrGo]
    split
    · simpa using hk
    · rename_i h10
      have hk2 : 2 ≤ k := by
        rcases Nat.lt_or_ge k 2 with h | h
        · have hk1 : k = 1 := by omega
          subst hk1
          simp [pow_one] at hp
          omega
        · exact h
      have hpow : 10 ^ k = 10 ^ (k - 1) * 10 := by
        rw [← pow_succ]
        congr 1
        omega
      rw [hpow] at hp
      have hdiv : n / 10 < 10 ^ (k - 1) := by omega
      have := ih (n / 10) (k - 1) (by omega) (by omega) hdiv
      simp [List.length_append]
      omega

theorem natStr_length_le (n k : Nat) (h : n < 10 ^ k) (hk : 1 ≤ k) :
    (natStr n).length ≤ k :=
  natStrGo_length (n + 1) n k (by omega) hk h

theorem natStr_length_pos (n : Nat) : 1 ≤ (natStr n).length := by
  rw [natStr, natStrGo]
  split
  · simp
  · simp [List.length_append]

theorem padz_length_of_le (w n : Nat) (h : (natStr n).length ≤ w) :
    (padz w n).length = w := by
  simp [padz, List.length_append, List.length_replicate]
  omega

theorem isoDT_length (y mo d h mi s : Nat) (hy : y ≤ 9999) (hmo : mo ≤ 99)
    (hd : d ≤ 99) (hh : h ≤ 99) (hmi : mi ≤ 99) (hs : s ≤ 99) :
    (isoDT y mo d h mi s).length = 26 := by
  have l4 := padz_length_of_le 4 y (natStr_length_le y 4 (by omega) (by omega))
  have lmo := padz_length_of_le 2 mo (natStr_length_le mo 2 (by omega) (by omega))
  have ld := padz_length_of_le 2 d (natStr_length_le d 2 (by omega) (by omega))
  have lh := padz_length_of_le 2 h (natStr_length_le h 2 (by omega) (by omega))
  have lmi := padz_length_of_le 2 mi (natStr_length_le mi 2 (by omega) (by omega))
  have ls := padz_length_of_le 2 s (natStr_length_le s 2 (by omega) (by omega))
  simp [isoDT, List.length_append, l4, lmo, ld, lh, lmi, ls]

theorem not_isIsoMicro_nil : ¬ IsIsoMicro [] := by
  rintro ⟨y, mo, d, h, mi, sec, hy, hmo, hd, hh, hmi, hs, heq⟩
  have hl := congrArg List.length heq
  rw [isoDT_length y mo d h mi sec hy hmo hd hh hmi hs] at hl
  simp at hl

theorem civilFromOrd_bounds (o : Nat) :
    1 ≤ (civilFromOrd o).2.1 ∧ (civilFromOrd o).2.1 ≤ 12 ∧
    1 ≤ (civilFromOrd o).2.2 ∧ (civilFromOrd o).2.2 ≤ 31 := by
  unfold civilFromOrd
  dsimp only
  omega

theorem spFinishYj_isIso (year j h mi s : Nat) (out : PyStr)
    (hh : h ≤ 99) (hm : mi ≤ 99) (hs : s ≤ 99)
    (he : spFinishYj year j h mi s = some out) : IsIsoMicro out := by
  unfold spFinishYj at he
  split at he
  · simp at he
  · dsimp only at he
    split at he
    · simp at he
    · rename_i hy9
      obtain ⟨b1, b2, b3, b4⟩ := civilFromOrd_bounds (ordJan1 year + j - 1)
      refine ⟨(civilFromOrd (ordJan1 year + j - 1)).1,
              (civilFromOrd (ordJan1 year + j - 1)).2.1,
              (civilFromOrd (ordJan1 year + j - 1)).2.2, h, mi, s,
              by omega, by omega, by omega, hh, hm, hs, ?_⟩
      exact (Option.some.inj he).symm

theorem spParseYjHMS_isIso (s : PyStr) (out : PyStr)
    (he : spParseYjHMS s = some out) : IsIsoMicro out := by
  unfold spParseYjHMS at he
  split at he
  · rename_i hcond
    exact spFinishYj_isIso _ _ _ _ _ _ (by omega) (by omega) (by omega) he
  · simp at he

theorem spParseYj_isIso (s : PyStr) (out : PyStr)
    (he : spParseYj s = some out) : IsIsoMicro out := by
  unfold spParseYj at he
  split at he
  · exact spFinishYj_isIso _ _ _ _ _ _ (by omega) (by omega) (by omega) he
  · simp at he

theorem exceptPure_bind (a : α) (f : α → Except ε β) :
    (pure a >>= f : Except ε β) = f a := rfl

theorem ispf_date_iso_or_empty (d : List Nat) (s : Nat) (r : PyStr)
    (hok : ispf_date d s = .ok r) : r = [] ∨ IsIsoMicro r := by
  unfold ispf_date at hok
  cases h0 : pyIndex d 0 with
  | error e => rw [h0, exceptBind_err] at hok; simp at hok
  | ok b0 =>
  rw [h0, exceptBind_ok] at hok
  cases h1 : pyIndex d 1 with
  | error e => rw [h1, exceptBind_err] at hok; simp at hok
  | ok b1 =>
  rw [h1, exceptBind_ok] at hok
  cases h2 : pyIndex d 2 with
  | error e => rw [h2, exceptBind_err] at hok; simp at hok
  | ok b2 =>
  rw [h2, exceptBind_ok] at hok
  cases h3 : pyIndex d 3 with
  | error e => rw [h3, exceptBind_err] at hok; simp at hok
  | ok b3 =>
  rw [h3, exceptBind_ok] at hok
  dsimp only at hok
  split at hok
  · cases h4 : pyIndex d 4 with
    | error e => rw [h4, exceptBind_err] at hok; simp at hok
    | ok b4 =>
    rw [h4, exceptBind_ok] at hok
    cases h5 : pyIndex d 5 with
    | error e => rw [h5, exceptBind_err] at hok; simp at hok
    | ok b5 =>
    rw [h5, exceptBind_ok, exceptPure_bind] at hok
    dsimp only at hok
    split at hok
    · rename_i iso hsp
      right
      have hr : iso = r := by simpa [pure, Except.pure] using hok
      rw [← hr]
      exact spParseYjHMS_isIso _ _ hsp
    · left
      have hr := hok
      simp [pure, Except.pure] at hr
      exact hr
  · rw [exceptPure_bind] at hok
    dsimp only at hok
    split at hok
    · rename_i iso hsp
      right
      have hr : iso = r := by simpa [pure, Except.pure] using hok
      rw [← hr]
      exact spParseYjHMS_isIso _ _ hsp
    · left
      have hr := hok
      simp [pure, Except.pure] at hr
      exact hr

theorem ispf_date_no_raise (d : List Nat) (s : Nat)
    (hlen : d.length = 4 ∨ d.length = 6) :
    exceptOk (ispf_date d s) = true := by
  have hl4 : 4 ≤ d.length := by omega
  obtain ⟨b0, e0⟩ := pyIndex_isOk d 0 (by omega)
  obtain ⟨b1, e1⟩ := pyIndex_isOk d 1 (by omega)
  obtain ⟨b2, e2⟩ := pyIndex_isOk d 2 (by omega)
  obtain ⟨b3, e3⟩ := pyIndex_isOk d 3 (by omega)
  unfold ispf_date
  rw [e0, exceptBind_ok, e1, exceptBind_ok, e2, exceptBind_ok, e3, exceptBind_ok]
  dsimp only
  rcases hlen with h | h
  · rw [if_neg (by omega)]
    rw [exceptPure_bind]
    dsimp only
    split
    · rfl
    · rfl
  · rw [if_pos (by omega)]
    obtain ⟨b4, e4⟩ := pyIndex_isOk d 4 (by omega)
    obtain ⟨b5, e5⟩ := pyIndex_isOk d 5 (by omega)
    rw [e4, exceptBind_ok, e5, exceptBind_ok, exceptPure_bind]
    dsimp only
    split
    · rfl
    · rfl

theorem get_tape_date_iso (t : PyStr) (r : PyStr)
    (hok : get_tape_date t = .ok r) : IsIsoMicro r := by
  unfold get_tape_date at hok
  cases h0 : pyIndex t 0 with
  | error e => rw [h0, exceptBind_err] at hok; simp at hok
  | ok c0 =>
  rw [h0, exceptBind_ok] at hok
  split at hok
  · rw [exceptPure_bind] at hok
    dsimp only at hok
    split at hok
    · rename_i iso hsp
      have hr : iso = r := by simpa [pure, Except.pure] using hok
      rw [← hr]
      exact spParseYj_isIso _ _ hsp
    · simp [throw, throwThe, MonadExceptOf.throw] at hok
  · split at hok
    · rw [exceptPure_bind] at hok
      dsimp only at hok
      split at hok
      · rename_i iso hsp
        have hr : iso = r := by simpa [pure, Except.pure] using hok
        rw [← hr]
        exact spParseYj_isIso _ _ hsp
      · simp [throw, throwThe, MonadExceptOf.throw] at hok
    · simp [throw, throwThe, MonadExceptOf.throw, exceptBind_err] at hok

end Xmi

/-- C5 counterexample: on unparseable ISPF date bytes (the year byte
0xAB renders as non-digit hex), the stored value is the empty string —
not `None`, and not an ISO-8601 string; and `get_tape_date` raises on
unparseable tape date bytes instead of storing `None`, aborting label
parsing. -/
theorem c5_counterexample :
    Xmi.ispf_date [0x00, 0xAB, 0x01, 0x00] 0 = .ok [] ∧
    ¬ Xmi.IsIsoMicro [] ∧
    Xmi.exceptOk (Xmi.get_tape_date "ABCDEF".toList) = false := by
  refine ⟨by decide, Xmi.not_isIsoMicro_nil, by decide⟩

/-- C5 (amended): every ISPF date stored in the parsed model is either
a complete ISO-8601 string with microsecond precision or the empty
string when the source bytes are unparseable (never a partial string,
and parsing does not abort at the call shapes used — 4-byte create and
6-byte modify slices); tape-label dates are complete ISO-8601 strings
when they parse, but unparseable tape date bytes raise an exception
(aborting tape parsing) instead of storing `None`. -/
theorem c5_dates_iso_or_empty :
    (∀ d s r, Xmi.ispf_date d s = .ok r → r = [] ∨ Xmi.IsIsoMicro r) ∧
    (∀ d s, d.length = 4 ∨ d.length = 6 → Xmi.exceptOk (Xmi.ispf_date d s) = true) ∧
    (∀ t r, Xmi.get_tape_date t = .ok r → Xmi.IsIsoMicro r) ∧
    Xmi.exceptOk (Xmi.get_tape_date "ABCDEF".toList) = false :=
  ⟨Xmi.ispf_date_iso_or_empty, Xmi.ispf_date_no_raise, Xmi.get_tape_date_iso,
   by decide⟩

/-- C5 witness: concrete evaluations of the amended claim — a parseable
ISPF date yields a complete ISO string, an unparseable one the empty
string, and a parseable tape date a complete ISO string. -/
theorem c5_witness :
    Xmi.IsIsoMicro "1987-06-04T00:00:00.000000".toList ∧
    (([] : Xmi.PyStr) = [] ∨ Xmi.IsIsoMicro []) ∧
    Xmi.exceptOk (Xmi.ispf_date [0x00, 0x87, 0x15, 0x50] 0) = true := by
  refine ⟨?_, ?_, ?_⟩
  · have h := c5_dates_iso_or_empty.2.2.1 " 87155".toList
      "1987-06-04T00:00:00.000000".toList (by decide)
    exact h
  · exact c5_dates_iso_or_empty.1 [0x00, 0xAB, 0x01, 0x00] 0 [] (by decide)
  · exact c5_dates_iso_or_empty.2.1 [0x00, 0x87, 0x15, 0x50] 0 (Or.inl (by decide))


namespace Xmi

theorem pySliceI_nat (s : List α) (i r : Nat) :
    pySliceI s (i : Int) ((i : Int) + (r : Int)) = (s.drop i).take r := by
  unfold pySliceI
  dsimp only
  rw [if_neg (by omega), if_neg (by omega)]
  have h1 : ((i : Int) + (r : Int)).toNat = i + r := by omega
  have h2 : ((i : Int)).toNat = i := by omega
  rw [h1, h2]
  rcases Nat.lt_or_ge i s.length with h | h
  · rw [Nat.min_eq_left (by omega : i ≤ s.length), List.take_eq_take]
    simp [List.length_drop]
    omega
  · rw [Nat.min_eq_right (by omega : s.length ≤ i),
        List.drop_eq_nil_of_le (le_refl s.length),
        List.drop_eq_nil_of_le (by omega : s.length ≤ i)]
    simp

theorem pySliceI_tail8 (s : List α) (i r : Nat) (hr : 8 ≤ r) :
    pySliceI s ((i : Int) + (r : Int) - 8) ((i : Int) + (r : Int)) =
      ((s.drop i).take r).drop (r - 8) := by
  have hcast : (i : Int) + (r : Int) - 8 = ((i + (r - 8) : Nat) : Int) := by
    push_cast
    omega
  have hcast2 : (i : Int) + (r : Int) = ((i + (r - 8) : Nat) : Int) + ((8 : Nat) : Int) := by
    push_cast
    omega
  rw [hcast, hcast2, pySliceI_nat, List.drop_take]
  rw [List.drop_drop]
  have h8 : r - (r - 8) = 8 := by omega
  rw [h8]

theorem pySliceI_head (s : List α) (i r : Nat) (hr : 8 ≤ r) :
    pySliceI s (i : Int) ((i : Int) + (r : Int) - 8) =
      ((s.drop i).take r).take (r - 8) := by
  have hcast : (i : Int) + (r : Int) - 8 = (i : Int) + ((r - 8 : Nat) : Int) := by
    omega
  rw [hcast, pySliceI_nat, List.take_take]
  congr 1
  omega

theorem ctfGo_eq_spec (r : Nat) (u : Bool) (hr : 8 ≤ r) :
    ∀ fuel s i, ctfGo s r u fuel i =
      (specChunksGo r fuel (s.drop i)).map (specLineStrip r u) := by
  intro fuel
  induction fuel with
  | zero => intro s i; rfl
  | succ f ih =>
    intro s i
    rw [ctfGo, specChunksGo]
    by_cases hi : i < s.length
    · rw [if_pos hi]
      have hne : ¬((s.drop i).isEmpty = true) := by
        simp only [List.isEmpty_iff]
        intro hc
        have := congrArg List.length hc
        simp at this
        omega
      rw [if_neg hne, List.map_cons]
      congr 1
      · unfold ctfLine specLineStrip
        rw [pySliceI_tail8 s i r hr, pySliceI_head s i r hr, pySliceI_nat s i r,
            Bool.and_comm]
      · rw [ih s (i + r)]
        congr 1
        rw [List.drop_drop]
    · rw [if_neg hi]
      have hemp : (s.drop i).isEmpty = true := by
        simp [List.isEmpty_iff, List.drop_eq_nil_of_le (by omega : s.length ≤ i)]
      rw [if_pos hemp]
      rfl

end Xmi

/-- C7 counterexample: the fixed-record text "AAAAAAAAAABB123" with
LRECL 10 and `unnum` on.  The second chunk "BB123" is shorter than 8
characters, so the claim as stated ("the last 8 characters of the line
are ASCII digits") forbids stripping; the code nonetheless checks the
clamped slice "123" with `str.isnumeric` and strips it, yielding "BB". -/
theorem c7_counterexample :
    Xmi.convert_text_file
      [0xC1, 0xC1, 0xC1, 0xC1, 0xC1, 0xC1, 0xC1, 0xC1, 0xC1, 0xC1,
       0xC2, 0xC2, 0xF1, 0xF2, 0xF3] 10 true = "AAAAAAAAAA\nBB\n".toList ∧
    Xmi.convertSpecClaimed
      [0xC1, 0xC1, 0xC1, 0xC1, 0xC1, 0xC1, 0xC1, 0xC1, 0xC1, 0xC1,
       0xC2, 0xC2, 0xF1, 0xF2, 0xF3] 10 true = "AAAAAAAAAA\nBB123\n".toList ∧
    Xmi.convert_text_file
      [0xC1, 0xC1, 0xC1, 0xC1, 0xC1, 0xC1, 0xC1, 0xC1, 0xC1, 0xC1,
       0xC2, 0xC2, 0xF1, 0xF2, 0xF3] 10 true ≠
    Xmi.convertSpecClaimed
      [0xC1, 0xC1, 0xC1, 0xC1, 0xC1, 0xC1, 0xC1, 0xC1, 0xC1, 0xC1,
       0xC2, 0xC2, 0xF1, 0xF2, 0xF3] 10 true := by
  refine ⟨by decide, by decide, by decide⟩

/-- C7 (amended): for fixed-record text with record length r >= 8,
`convert_text_file` splits the decoded string into fixed-width chunks
of r characters and, per line, when `unnum` is on and the characters of
the line from position r-8 on are nonempty and all numeric (Python
`str.isnumeric`, which also accepts superscripts and vulgar fractions),
strips them; each line is then right-trimmed of trailing blanks, the
lines are joined with newlines, and the result ends with a newline. -/
theorem c7_convert_text_fixed (e : List Nat) (r : Nat) (u : Bool) (hr : 8 ≤ r) :
    Xmi.convert_text_file e r u = Xmi.convertSpecAmended e r u := by
  unfold Xmi.convert_text_file Xmi.convertSpecAmended Xmi.specChunks
  rw [if_neg (by omega)]
  rw [Xmi.ctfGo_eq_spec r u hr ((Xmi.ebcdicDecode e).length + 1) (Xmi.ebcdicDecode e) 0,
      List.drop_zero]

/-- C7 witness: the amended conversion agrees with the code on a
concrete fixed-record input with r = 10. -/
theorem c7_witness :
    Xmi.convert_text_file
      [0xC1, 0xC1, 0xC1, 0xC1, 0xC1, 0xC1, 0xC1, 0xC1, 0xF1, 0xF2,
       0xC2, 0xC2, 0xF1, 0xF2, 0xF3] 10 true =
    Xmi.convertSpecAmended
      [0xC1, 0xC1, 0xC1, 0xC1, 0xC1, 0xC1, 0xC1, 0xC1, 0xF1, 0xF2,
       0xC2, 0xC2, 0xF1, 0xF2, 0xF3] 10 true :=
  c7_convert_text_fixed _ 10 true (by decide)


/-- C8: an ISPF statistics block is attached to a parsed directory
member exactly when the member's notes field is 0 and at least 30 bytes
of user-data halfwords are present; and whenever the parsed ISPF flags
byte has bit 0x10 set, the lines/newlines/modlines counts are taken
from the 32-bit fields at user-data offsets 28..40 rather than the
16-bit fields at offsets 14..20. -/
theorem c8_ispf_stats (info : List Nat) (loc : Nat) (name : Xmi.PyStr)
    (e : Xmi.DirEntry)
    (hp : Xmi.memberEntryAt info loc = .ok (.entry name e)) :
    (e.ispf.isSome = true ↔ (e.notes = 0 ∧ 30 ≤ e.parms.length)) ∧
    (∀ st, e.ispf = some st → st.flags &&& 0x10 = 0x10 →
      st.lines = Xmi.pygetInt (Xmi.pySlice e.parms 28 32) ∧
      st.newlines = Xmi.pygetInt (Xmi.pySlice e.parms 32 36) ∧
      st.modlines = Xmi.pygetInt (Xmi.pySlice e.parms 36 40)) := by
  unfold Xmi.memberEntryAt at hp
  split at hp
  · simp [pure, Except.pure] at hp
  · cases hfb : Xmi.pyIndex info (loc + 11) with
    | error err => rw [hfb, Xmi.exceptBind_err] at hp; simp at hp
    | ok flagByte =>
    rw [hfb, Xmi.exceptBind_ok] at hp
    dsimp only at hp
    split at hp
    · rename_i hcond
      cases hcd : Xmi.ispf_date (Xmi.pySlice (Xmi.pySlice info (loc + 12)
          (loc + 12 + (flagByte &&& 0x1F) * 2)) 4 8) 0 with
      | error err => rw [hcd, Xmi.exceptBind_err] at hp; simp at hp
      | ok createdate =>
      rw [hcd, Xmi.exceptBind_ok] at hp
      cases hmd : Xmi.ispf_date (Xmi.pySlice (Xmi.pySlice info (loc + 12)
          (loc + 12 + (flagByte &&& 0x1F) * 2)) 8 14)
          ((Xmi.pySlice info (loc + 12) (loc + 12 + (flagByte &&& 0x1F) * 2)).getD 3 0) with
      | error err => rw [hmd, Xmi.exceptBind_err] at hp; simp at hp
      | ok modifydate =>
      rw [hmd, Xmi.exceptBind_ok] at hp
      simp only [pure, Except.pure, Except.ok.injEq, Xmi.MemberParse.entry.injEq] at hp
      obtain ⟨hname, hent⟩ := hp
      subst hent
      constructor
      · simp only [Option.isSome_some, true_iff]
        exact ⟨hcond.2, hcond.1⟩
      · intro st hst hflag
        dsimp only at hst
        split at hst
        · rename_i hf10
          rw [← Option.some.inj hst]
          exact ⟨rfl, rfl, rfl⟩
        · rename_i hf10
          rw [← Option.some.inj hst] at hflag
          exact absurd hflag hf10
    · rename_i hcond
      simp only [pure, Except.pure, Except.ok.injEq, Xmi.MemberParse.entry.injEq] at hp
      obtain ⟨hname, hent⟩ := hp
      subst hent
      constructor
      · simp only [Option.isSome_none, Bool.false_eq_true, false_iff]
        intro ⟨hn, hl⟩
        exact hcond ⟨hl, hn⟩
      · intro st hst
        simp at hst

/-- C8 witness: on the concrete entry `c8info` (notes 0, 40 user-data
bytes, ISPF flags 0x10), the stats block is attached and its counts are
the 32-bit trailing fields (9, 10, 11). -/
theorem c8_witness :
    (Xmi.c8entry.ispf.isSome = true ↔
      (Xmi.c8entry.notes = 0 ∧ 30 ≤ Xmi.c8entry.parms.length)) ∧
    (∀ st, Xmi.c8entry.ispf = some st → st.flags &&& 0x10 = 0x10 →
      st.lines = Xmi.pygetInt (Xmi.pySlice Xmi.c8entry.parms 28 32) ∧
      st.newlines = Xmi.pygetInt (Xmi.pySlice Xmi.c8entry.parms 32 36) ∧
      st.modlines = Xmi.pygetInt (Xmi.pySlice Xmi.c8entry.parms 36 40)) :=
  c8_ispf_stats Xmi.c8info 0 "AAAAAAAA".toList Xmi.c8entry (by decide)


namespace Xmi

theorem dictGet_dictSet_self [DecidableEq α] (l : List (α × β)) (k : α) (v : β) :
    dictGet (dictSet l k v) k = some v := by
  induction l with
  | nil => simp [dictSet, dictGet]
  | cons p t ih =>
    obtain ⟨a, b⟩ := p
    rw [dictSet]
    by_cases h : a = k
    · rw [if_pos h, dictGet, if_pos h]
    · rw [if_neg h, dictGet, if_neg h]
      exact ih

theorem dictGet_dictSet_ne [DecidableEq α] (l : List (α × β)) (k k' : α) (v : β)
    (h : k' ≠ k) : dictGet (dictSet l k v) k' = dictGet l k' := by
  induction l with
  | nil =>
    simp [dictSet, dictGet]
    exact fun hc => h hc.symm
  | cons p t ih =>
    obtain ⟨a, b⟩ := p
    rw [dictSet]
    by_cases ha : a = k
    · rw [if_pos ha, dictGet, dictGet]
      subst ha
      rw [if_neg (fun hc => h hc.symm), if_neg (fun hc => h hc.symm)]
    · rw [if_neg ha, dictGet, dictGet]
      by_cases ha2 : a = k'
      · rw [if_pos ha2, if_pos ha2]
      · rw [if_neg ha2, if_neg ha2]
        exact ih

theorem dictGet_mem [DecidableEq α] (l : List (α × β)) (k : α) (v : β)
    (h : dictGet l k = some v) : (k, v) ∈ l := by
  induction l with
  | nil => simp [dictGet] at h
  | cons p t ih =>
    obtain ⟨a, b⟩ := p
    rw [dictGet] at h
    by_cases ha : a = k
    · rw [if_pos ha] at h
      subst ha
      rw [Option.some.inj h]
      exact List.mem_cons_self _ _
    · rw [if_neg ha] at h
      exact List.mem_cons_of_mem _ (ih h)

theorem mem_dictGet [DecidableEq α] (l : List (α × β)) (k : α) (v : β)
    (hnd : (l.map Prod.fst).Nodup) (h : (k, v) ∈ l) : dictGet l k = some v := by
  induction l with
  | nil => simp at h
  | cons p t ih =>
    obtain ⟨a, b⟩ := p
    rw [List.map_cons, List.nodup_cons] at hnd
    rw [dictGet]
    rcases List.mem_cons.mp h with h1 | h1
    · obtain ⟨hk, hv⟩ := Prod.mk.inj h1
      rw [if_pos hk.symm]
      exact congrArg some hv.symm
    · by_cases ha : a = k
      · exfalso
        have hmem : k ∈ t.map Prod.fst := List.mem_map.mpr ⟨(k, v), h1, rfl⟩
        rw [← ha] at hmem
        exact hnd.1 hmem
      · rw [if_neg ha]
        exact ih hnd.2 h1

theorem mem_dictSet [DecidableEq α] (l : List (α × β)) (k : α) (v : β) (p : α × β)
    (h : p ∈ dictSet l k v) : p ∈ l ∨ p = (k, v) := by
  induction l with
  | nil => simp [dictSet] at h; right; exact h
  | cons q t ih =>
    obtain ⟨a, b⟩ := q
    rw [dictSet] at h
    by_cases ha : a = k
    · rw [if_pos ha] at h
      rcases List.mem_cons.mp h with h1 | h1
      · right; rw [h1, ha]
      · left; exact List.mem_cons_of_mem _ h1
    · rw [if_neg ha] at h
      rcases List.mem_cons.mp h with h1 | h1
      · left; rw [h1]; exact List.mem_cons_self _ _
      · rcases ih h1 with h2 | h2
        · left; exact List.mem_cons_of_mem _ h2
        · right; exact h2

theorem dictSet_keys_nodup [DecidableEq α] (l : List (α × β)) (k : α) (v : β)
    (hnd : (l.map Prod.fst).Nodup) : ((dictSet l k v).map Prod.fst).Nodup := by
  induction l with
  | nil => simp [dictSet]
  | cons q t ih =>
    obtain ⟨a, b⟩ := q
    rw [List.map_cons, List.nodup_cons] at hnd
    rw [dictSet]
    by_cases ha : a = k
    · rw [if_pos ha, List.map_cons, List.nodup_cons]
      exact ⟨ha ▸ hnd.1, hnd.2⟩
    · rw [if_neg ha, List.map_cons, List.nodup_cons]
      constructor
      · intro hc
        rcases List.mem_map.mp hc with ⟨p, hp, hfst⟩
        rcases mem_dictSet t k v p hp with h1 | h1
        · exact hnd.1 (List.mem_map.mpr ⟨p, h1, hfst⟩)
        · rw [h1] at hfst
          exact ha hfst.symm
      · exact ih hnd.2

theorem updAlias_lookup (ms : List (PyStr × PBMember)) (nm : PyStr) (b : Bool) (k : PyStr) :
    dictGet (updAlias ms nm b) k =
      if k = nm then (dictGet ms nm).map (fun e => { e with aliasFlag := b })
      else dictGet ms k := by
  induction ms with
  | nil => simp [updAlias, dictGet]
  | cons q t ih =>
    obtain ⟨a, e⟩ := q
    rw [updAlias]
    by_cases ha : a = nm
    · rw [if_pos ha]
      subst ha
      by_cases hk : k = a
      · rw [if_pos hk, dictGet, if_pos hk.symm, dictGet, if_pos rfl]
        rfl
      · rw [if_neg hk, dictGet, if_neg (fun hc => hk hc.symm), dictGet,
            if_neg (fun hc => hk hc.symm)]
    · rw [if_neg ha]
      by_cases hk : k = nm
      · rw [if_pos hk, dictGet]
        subst hk
        rw [if_neg ha, ih, if_pos rfl, dictGet, if_neg ha]
      · rw [if_neg hk, dictGet, dictGet]
        by_cases hak : a = k
        · rw [if_pos hak, if_pos hak]
        · rw [if_neg hak, if_neg hak, ih, if_neg hk]

end Xmi


namespace Xmi

theorem pbBuildGo_als_lookup (tv : Nat) :
    ∀ (ms : List (PyStr × PBMember)) (ttrs als : List (Nat × PyStr)),
      dictGet (pbBuildGo ms ttrs als).2 tv =
        match lastWith (fun p => p.2.aliasFlag && p.2.ttr == tv) ms with
        | some p => some p.1
        | none => dictGet als tv := by
  intro ms
  induction ms with
  | nil => intro ttrs als; rfl
  | cons q rest ih =>
    intro ttrs als
    obtain ⟨n, e⟩ := q
    rw [pbBuildGo, lastWith]
    by_cases hal : e.aliasFlag
    · rw [if_pos hal, ih]
      cases hlw : lastWith (fun p => p.2.aliasFlag && p.2.ttr == tv) rest with
      | some p => rfl
      | none =>
        dsimp only
        by_cases httr : e.ttr = tv
        · rw [if_pos (by simp [hal, httr])]
          dsimp only
          rw [← httr, dictGet_dictSet_self]
        · rw [if_neg (by simp [httr])]
          exact dictGet_dictSet_ne als e.ttr tv n (fun hc => httr hc.symm)
    · rw [if_neg hal, ih]
      cases hlw : lastWith (fun p => p.2.aliasFlag && p.2.ttr == tv) rest with
      | some p => rfl
      | none =>
        dsimp only
        rw [if_neg (by simp [hal])]

theorem pbBuildGo_ttrs_lookup (tv : Nat) :
    ∀ (ms : List (PyStr × PBMember)) (ttrs als : List (Nat × PyStr)),
      dictGet (pbBuildGo ms ttrs als).1 tv =
        match lastWith (fun p => !p.2.aliasFlag && p.2.ttr == tv) ms with
        | some p => some p.1
        | none => dictGet ttrs tv := by
  intro ms
  induction ms with
  | nil => intro ttrs als; rfl
  | cons q rest ih =>
    intro ttrs als
    obtain ⟨n, e⟩ := q
    rw [pbBuildGo, lastWith]
    by_cases hal : e.aliasFlag
    · rw [if_pos hal, ih]
      cases hlw : lastWith (fun p => !p.2.aliasFlag && p.2.ttr == tv) rest with
      | some p => rfl
      | none =>
        dsimp only
        rw [if_neg (by simp [hal])]
    · rw [if_neg hal, ih]
      cases hlw : lastWith (fun p => !p.2.aliasFlag && p.2.ttr == tv) rest with
      | some p => rfl
      | none =>
        dsimp only
        by_cases httr : e.ttr = tv
        · rw [if_pos (by simp [hal, httr])]
          dsimp only
          rw [← httr, dictGet_dictSet_self]
        · rw [if_neg (by simp [httr])]
          exact dictGet_dictSet_ne ttrs e.ttr tv n (fun hc => httr hc.symm)

theorem pbBuildGo_als_mem :
    ∀ (ms : List (PyStr × PBMember)) (ttrs als : List (Nat × PyStr)) (a : Nat) (nm : PyStr),
      (a, nm) ∈ (pbBuildGo ms ttrs als).2 →
      (a, nm) ∈ als ∨ ∃ e, (nm, e) ∈ ms ∧ e.ttr = a ∧ e.aliasFlag = true := by
  intro ms
  induction ms with
  | nil =>
    intro ttrs als a nm h
    exact Or.inl h
  | cons q rest ih =>
    intro ttrs als a nm h
    obtain ⟨n, e⟩ := q
    rw [pbBuildGo] at h
    by_cases hal : e.aliasFlag
    · rw [if_pos hal] at h
      rcases ih _ _ _ _ h with h1 | h1
      · rcases mem_dictSet als e.ttr n _ h1 with h2 | h2
        · exact Or.inl h2
        · right
          obtain ⟨ha2, hn2⟩ := Prod.mk.inj h2
          refine ⟨e, ?_, ha2.symm, hal⟩
          rw [hn2]
          exact List.mem_cons_self _ _
      · rcases h1 with ⟨e2, hmem, ht, hala⟩
        exact Or.inr ⟨e2, List.mem_cons_of_mem _ hmem, ht, hala⟩
    · rw [if_neg hal] at h
      rcases ih _ _ _ _ h with h1 | h1
      · exact Or.inl h1
      · rcases h1 with ⟨e2, hmem, ht, hala⟩
        exact Or.inr ⟨e2, List.mem_cons_of_mem _ hmem, ht, hala⟩

theorem pbBuildGo_als_nodup :
    ∀ (ms : List (PyStr × PBMember)) (ttrs als : List (Nat × PyStr)),
      (als.map Prod.fst).Nodup → ((pbBuildGo ms ttrs als).2.map Prod.fst).Nodup := by
  intro ms
  induction ms with
  | nil => intro ttrs als h; exact h
  | cons q rest ih =>
    intro ttrs als h
    obtain ⟨n, e⟩ := q
    rw [pbBuildGo]
    by_cases hal : e.aliasFlag
    · rw [if_pos hal]
      exact ih _ _ (dictSet_keys_nodup als e.ttr n h)
    · rw [if_neg hal]
      exact ih _ _ h

end Xmi


namespace Xmi

theorem lastWith_congr (f g : α → Bool) (l : List α) (h : ∀ x ∈ l, f x = g x) :
    lastWith f l = lastWith g l := by
  induction l with
  | nil => rfl
  | cons x tail ih =>
    rw [lastWith, lastWith, ih (fun y hy => h y (List.mem_cons_of_mem _ hy))]
    cases lastWith g tail with
    | some y => rfl
    | none =>
      dsimp only
      rw [h x (List.mem_cons_self _ _)]

theorem lastWith_none (f : α → Bool) (l : List α) (h : ∀ x ∈ l, f x = false) :
    lastWith f l = none := by
  induction l with
  | nil => rfl
  | cons x tail ih =>
    rw [lastWith, ih (fun y hy => h y (List.mem_cons_of_mem _ hy))]
    dsimp only
    rw [h x (List.mem_cons_self _ _)]
    rfl

theorem lastWith_mem (f : α → Bool) (l : List α) (x : α)
    (h : lastWith f l = some x) : x ∈ l ∧ f x = true := by
  induction l with
  | nil => simp [lastWith] at h
  | cons y tail ih =>
    rw [lastWith] at h
    cases hlw : lastWith f tail with
    | some z =>
      rw [hlw] at h
      have hzx : z = x := Option.some.inj h
      subst hzx
      obtain ⟨hz1, hz2⟩ := ih hlw
      exact ⟨List.mem_cons_of_mem _ hz1, hz2⟩
    | none =>
      rw [hlw] at h
      dsimp only at h
      by_cases hf : f y = true
      · rw [if_pos hf] at h
        rw [← Option.some.inj h]
        exact ⟨List.mem_cons_self _ _, hf⟩
      · rw [if_neg hf] at h
        simp at h

theorem pbLoop_untouched :
    ∀ (rest ttrs : List (Nat × PyStr)) (msCur : List (PyStr × PBMember))
      (n : PyStr) (e : PBMember),
      dictGet msCur n = some e →
      (∀ a, (a, n) ∉ rest) →
      dictGet (pbLoop rest ttrs msCur).2 n = some e := by
  intro rest
  induction rest with
  | nil => intro ttrs msCur n e h _; exact h
  | cons q tail ih =>
    intro ttrs msCur n e h hnot
    obtain ⟨a, nm⟩ := q
    rw [pbLoop]
    cases hget : dictGet ttrs a with
    | some v => exact ih _ _ _ _ h (fun a2 hm => hnot a2 (List.mem_cons_of_mem _ hm))
    | none =>
      cases hgm : dictGet msCur nm with
      | none => exact ih _ _ _ _ h (fun a2 hm => hnot a2 (List.mem_cons_of_mem _ hm))
      | some e0 =>
        apply ih
        · rw [updAlias_lookup]
          have hne : n ≠ nm := by
            intro hc
            exact hnot a (by rw [hc]; exact List.mem_cons_self _ _)
          rw [if_neg hne]
          exact h
        · intro a2 hm
          exact hnot a2 (List.mem_cons_of_mem _ hm)

theorem pbLoop_promote (t : Nat) (nL : PyStr) :
    ∀ (rest ttrs : List (Nat × PyStr)) (msCur : List (PyStr × PBMember)) (eL : PBMember),
      (t, nL) ∈ rest →
      (rest.map Prod.fst).Nodup →
      dictGet ttrs t = none →
      dictGet msCur nL = some eL →
      (∀ a nm, (a, nm) ∈ rest → a ≠ t → nm ≠ nL) →
      (∀ a nm, (a, nm) ∈ rest → a ≠ t → ∀ e0, dictGet msCur nm = some e0 → e0.ttr ≠ t) →
      dictGet (pbLoop rest ttrs msCur).2 nL = some { eL with aliasFlag := false } := by
  intro rest
  induction rest with
  | nil =>
    intro ttrs msCur eL hmem
    simp at hmem
  | cons q tail ih =>
    intro ttrs msCur eL hmem hnd httrs hcur hother hinv
    obtain ⟨a, nm⟩ := q
    rw [List.map_cons, List.nodup_cons] at hnd
    by_cases hat : a = t
    · have hnm : nm = nL := by
        rcases List.mem_cons.mp hmem with h1 | h1
        · exact ((Prod.mk.inj h1).2).symm
        · exfalso
          apply hnd.1
          rw [hat]
          exact List.mem_map.mpr ⟨(t, nL), h1, rfl⟩
      rw [pbLoop, hat, httrs, hnm, hcur]
      dsimp only
      apply pbLoop_untouched
      · rw [updAlias_lookup, if_pos rfl, hcur]
        rfl
      · intro a2 hm
        have ha2t : a2 ≠ t := by
          intro hc
          apply hnd.1
          have hmm : a2 ∈ tail.map Prod.fst := List.mem_map.mpr ⟨(a2, nL), hm, rfl⟩
          rw [hc, ← hat] at hmm
          exact hmm
        exact hother a2 nL (List.mem_cons_of_mem _ hm) ha2t rfl
    · have hmemtail : (t, nL) ∈ tail := by
        rcases List.mem_cons.mp hmem with h1 | h1
        · exact absurd ((Prod.mk.inj h1).1).symm hat
        · exact h1
      rw [pbLoop]
      cases hget : dictGet ttrs a with
      | some v =>
        exact ih _ _ _ hmemtail hnd.2 httrs hcur
          (fun a2 nm2 hm2 => hother a2 nm2 (List.mem_cons_of_mem _ hm2))
          (fun a2 nm2 hm2 => hinv a2 nm2 (List.mem_cons_of_mem _ hm2))
      | none =>
        cases hgm : dictGet msCur nm with
        | none =>
          exact ih _ _ _ hmemtail hnd.2 httrs hcur
            (fun a2 nm2 hm2 => hother a2 nm2 (List.mem_cons_of_mem _ hm2))
            (fun a2 nm2 hm2 => hinv a2 nm2 (List.mem_cons_of_mem _ hm2))
        | some e0 =>
          have hnmL : nm ≠ nL := hother a nm (List.mem_cons_self _ _) hat
          have he0t : e0.ttr ≠ t := hinv a nm (List.mem_cons_self _ _) hat e0 hgm
          apply ih
          · exact hmemtail
          · exact hnd.2
          · rw [dictGet_dictSet_ne _ _ _ _ (fun hc => he0t hc.symm)]
            exact httrs
          · rw [updAlias_lookup, if_neg (fun hc => hnmL hc.symm)]
            exact hcur
          · exact fun a2 nm2 hm2 => hother a2 nm2 (List.mem_cons_of_mem _ hm2)
          · intro a2 nm2 hm2 ha2 e2 hg2
            rw [updAlias_lookup] at hg2
            by_cases hx : nm2 = nm
            · rw [if_pos hx, hgm] at hg2
              have he2 : e2 = { e0 with aliasFlag := false } := (Option.some.inj hg2).symm
              rw [he2]
              exact he0t
            · rw [if_neg hx] at hg2
              exact hinv a2 nm2 (List.mem_cons_of_mem _ hm2) ha2 e2 hg2

end Xmi


/-- C2 counterexample: members A and B in directory order, both marked
alias, sharing TTR 5.  The claim says the first (A) has its alias flag
cleared and B keeps it; the code clears the last (B) instead, because
the aliases dict maps TTR 5 to the last-seen member. -/
theorem c2_counterexample :
    Xmi.dictGet (Xmi.process_blocks_alias_pass
      [("A".toList, ⟨5, true⟩), ("B".toList, ⟨5, true⟩)]) "A".toList =
      some ⟨5, true⟩ ∧
    Xmi.dictGet (Xmi.process_blocks_alias_pass
      [("A".toList, ⟨5, true⟩), ("B".toList, ⟨5, true⟩)]) "B".toList =
      some ⟨5, false⟩ := by
  decide

/-- C2 (amended): during the alias-promotion pass of `process_blocks`,
if every directory member sharing a given TTR is marked alias, then the
last such member in directory order has its alias flag cleared and
becomes the data owner for that TTR, while all other members sharing
the TTR keep their alias flag. -/
theorem c2_alias_promotion (ms : List (Xmi.PyStr × Xmi.PBMember)) (t : Nat)
    (hnd : (ms.map Prod.fst).Nodup)
    (hall : ∀ p ∈ ms, p.2.ttr = t → p.2.aliasFlag = true)
    (nL : Xmi.PyStr) (eL : Xmi.PBMember)
    (hlast : Xmi.lastWith (fun p => p.2.ttr == t) ms = some (nL, eL)) :
    Xmi.dictGet (Xmi.process_blocks_alias_pass ms) nL = some ⟨t, false⟩ ∧
    ∀ n e, (n, e) ∈ ms → e.ttr = t → n ≠ nL →
      Xmi.dictGet (Xmi.process_blocks_alias_pass ms) n = some e := by
  obtain ⟨hLmem, hLf⟩ := Xmi.lastWith_mem _ ms (nL, eL) hlast
  have hLttr : eL.ttr = t := by simpa using hLf
  have hcur : Xmi.dictGet ms nL = some eL := Xmi.mem_dictGet ms nL eL hnd hLmem
  have hlw2 : Xmi.lastWith (fun p => p.2.aliasFlag && p.2.ttr == t) ms = some (nL, eL) := by
    rw [Xmi.lastWith_congr (fun p => p.2.aliasFlag && p.2.ttr == t)
        (fun p => p.2.ttr == t) ms]
    · exact hlast
    · intro p hp
      by_cases hpt : p.2.ttr = t
      · rw [hall p hp hpt]
        simp [hpt]
      · simp [hpt]
  have hlwN : Xmi.lastWith (fun p => !p.2.aliasFlag && p.2.ttr == t) ms = none := by
    apply Xmi.lastWith_none
    intro p hp
    by_cases hpt : p.2.ttr = t
    · rw [hall p hp hpt]
      simp
    · simp [hpt]
  have hals : Xmi.dictGet (Xmi.pbBuildGo ms [] []).2 t = some nL := by
    rw [Xmi.pbBuildGo_als_lookup t ms [] [], hlw2]
  have httrs : Xmi.dictGet (Xmi.pbBuildGo ms [] []).1 t = none := by
    rw [Xmi.pbBuildGo_ttrs_lookup t ms [] [], hlwN]
    rfl
  have halsnd : ((Xmi.pbBuildGo ms [] []).2.map Prod.fst).Nodup :=
    Xmi.pbBuildGo_als_nodup ms [] [] (by simp)
  have halsmem : (t, nL) ∈ (Xmi.pbBuildGo ms [] []).2 :=
    Xmi.dictGet_mem _ t nL hals
  have hvals : ∀ a nm, (a, nm) ∈ (Xmi.pbBuildGo ms [] []).2 →
      ∃ e, (nm, e) ∈ ms ∧ e.ttr = a ∧ e.aliasFlag = true := by
    intro a nm hm
    rcases Xmi.pbBuildGo_als_mem ms [] [] a nm hm with h1 | h1
    · simp at h1
    · exact h1
  have hother : ∀ a nm, (a, nm) ∈ (Xmi.pbBuildGo ms [] []).2 → a ≠ t → nm ≠ nL := by
    intro a nm hm hat hc
    obtain ⟨e1, he1m, he1t, _⟩ := hvals a nm hm
    rw [hc] at he1m
    have : Xmi.dictGet ms nL = some e1 := Xmi.mem_dictGet ms nL e1 hnd he1m
    rw [hcur] at this
    rw [← Option.some.inj this, hLttr] at he1t
    exact hat he1t.symm
  have hinv : ∀ a nm, (a, nm) ∈ (Xmi.pbBuildGo ms [] []).2 → a ≠ t →
      ∀ e0, Xmi.dictGet ms nm = some e0 → e0.ttr ≠ t := by
    intro a nm hm hat e0 hg0
    obtain ⟨e1, he1m, he1t, _⟩ := hvals a nm hm
    have hsame : Xmi.dictGet ms nm = some e1 := Xmi.mem_dictGet ms nm e1 hnd he1m
    rw [hg0] at hsame
    have hee : e0 = e1 := Option.some.inj hsame
    rw [hee, he1t]
    exact hat
  constructor
  · have := Xmi.pbLoop_promote t nL (Xmi.pbBuildGo ms [] []).2
      (Xmi.pbBuildGo ms [] []).1 ms eL halsmem halsnd httrs hcur hother hinv
    rw [Xmi.process_blocks_alias_pass, this]
    cases eL with
    | mk ttr fl =>
      simp at hLttr
      rw [hLttr]
  · intro n e hmem httr hne
    have hgn : Xmi.dictGet ms n = some e := Xmi.mem_dictGet ms n e hnd hmem
    rw [Xmi.process_blocks_alias_pass]
    apply Xmi.pbLoop_untouched _ _ _ _ _ hgn
    intro a hmm
    obtain ⟨e1, he1m, he1t, _⟩ := hvals a n hmm
    have he1 : Xmi.dictGet ms n = some e1 := Xmi.mem_dictGet ms n e1 hnd he1m
    rw [hgn] at he1
    have hee : e = e1 := Option.some.inj he1
    have hat2 : a = t := by rw [← he1t, ← hee, httr]
    rw [hat2] at hmm
    have : Xmi.dictGet (Xmi.pbBuildGo ms [] []).2 t = some n :=
      Xmi.mem_dictGet _ t n halsnd hmm
    rw [hals] at this
    exact hne (Option.some.inj this).symm

/-- C2 witness: on the two-alias member table, the theorem applies and
the last member B becomes the owner of TTR 5. -/
theorem c2_witness :
    Xmi.dictGet (Xmi.process_blocks_alias_pass
      [("A".toList, ⟨5, true⟩), ("B".toList, ⟨5, true⟩)]) "B".toList =
      some ⟨5, false⟩ :=
  (c2_alias_promotion [("A".toList, ⟨5, true⟩), ("B".toList, ⟨5, true⟩)] 5
    (by decide) (by decide) "B".toList ⟨5, true⟩ (by decide)).1


/-- C1: for a parsed member table with distinct names, reading an alias
member M whose resolved target is the non-alias member T sharing M's
TTR resolves the alias before access and returns exactly the bytes or
text of the target: `get_member_decoded` agrees on M and T. -/
theorem c1_alias_resolution (ms : List (Xmi.PyStr × Xmi.FMember))
    (M T : Xmi.PyStr) (eM : Xmi.FMember)
    (hnd : (ms.map Prod.fst).Nodup)
    (hM : Xmi.dictGet ms M = some eM)
    (hal : eM.aliasFlag = true)
    (hT : Xmi.get_alias ms M = .ok (some T)) :
    Xmi.get_member_decoded ms M = Xmi.get_member_decoded ms T := by
  have hisM : Xmi.is_alias ms M = .ok true := by
    unfold Xmi.is_alias
    rw [hM]
    dsimp only
    rw [hal]
  obtain ⟨p, hfind, hfst⟩ : ∃ p, (ms.find? fun p =>
      p.2.ttr.isSome && !p.2.aliasFlag && p.2.ttr == eM.ttr) = some p ∧ p.1 = T := by
    unfold Xmi.get_alias at hT
    rw [hM] at hT
    dsimp only at hT
    cases httr : eM.ttr with
    | none => rw [httr] at hT; simp at hT
    | some tv =>
      rw [httr] at hT
      dsimp only at hT
      cases hf : ms.find? fun p => p.2.ttr.isSome && !p.2.aliasFlag && p.2.ttr == some tv with
      | none => rw [hf] at hT; simp at hT
      | some p =>
        rw [hf] at hT
        refine ⟨p, rfl, ?_⟩
        simpa using Option.some.inj (Except.ok.inj hT)
  have hpred := List.find?_some hfind
  have hpmem := List.mem_of_find?_eq_some hfind
  simp only [Bool.and_eq_true, Option.isSome_iff_exists, Bool.not_eq_true] at hpred
  obtain ⟨⟨⟨tv2, htv2⟩, halT⟩, httreq⟩ := hpred
  have hTget : Xmi.dictGet ms T = some p.2 := by
    rw [← hfst]
    exact Xmi.mem_dictGet ms p.1 p.2 hnd (by
      have : p = (p.1, p.2) := rfl
      rw [← this]
      exact hpmem)
  have hisT : Xmi.is_alias ms T = .ok false := by
    unfold Xmi.is_alias
    rw [hTget]
    dsimp only
    have hf2 : p.2.aliasFlag = false := by simpa using halT
    rw [hf2]
  unfold Xmi.get_member_decoded
  rw [hisM, Xmi.exceptBind_ok, hisT, Xmi.exceptBind_ok]
  rw [if_pos rfl, if_neg (by decide : ¬(false = true))]
  rw [hT, Xmi.exceptBind_ok, Xmi.exceptPure_bind]

/-- C1 witness: a two-member table where M is an alias of T with the
same TTR; both reads return T's text. -/
theorem c1_witness :
    Xmi.get_member_decoded
      [("T".toList, ⟨some 7, false, some "hi".toList, some [1, 2]⟩),
       ("M".toList, ⟨some 7, true, none, none⟩)] "M".toList =
    Xmi.get_member_decoded
      [("T".toList, ⟨some 7, false, some "hi".toList, some [1, 2]⟩),
       ("M".toList, ⟨some 7, true, none, none⟩)] "T".toList :=
  c1_alias_resolution
    [("T".toList, ⟨some 7, false, some "hi".toList, some [1, 2]⟩),
     ("M".toList, ⟨some 7, true, none, none⟩)]
    "M".toList "T".toList ⟨some 7, true, none, none⟩
    (by decide) (by decide) (by decide) (by decide)


/-- One outer iteration of the `text_units` loop: with both two-byte
slices present and a key that is neither an empty INMFACK nor an empty
INMTERM unit, the loop processes the unit items and continues. -/
lemma textUnitsGo_step (recs : List Nat) (fuel loc : Nat) (tu : Xmi.TU) (acc : Xmi.PyStr)
    (msg : Bool) (key num loc3 : Nat) (tu3 : Xmi.TU) (acc3 : Xmi.PyStr)
    (hloc : loc < recs.length)
    (h2 : (Xmi.pySlice recs loc (loc + 2)).length = 2)
    (h4 : (Xmi.pySlice recs (loc + 2) (loc + 4)).length = 2)
    (hk : Xmi.pygetInt (Xmi.pySlice recs loc (loc + 2)) = key)
    (hn : Xmi.pygetInt (Xmi.pySlice recs (loc + 2) (loc + 4)) = num)
    (hack : ¬(key = 0x1026 ∧ num = 0))
    (hterm : ¬(key = 0x0028 ∧ num = 0))
    (hitems : Xmi.tuItemsGo recs key num true loc tu acc = (loc3, tu3, acc3)) :
    Xmi.textUnitsGo recs (fuel + 1) loc tu acc msg =
      Xmi.textUnitsGo recs fuel loc3 tu3 acc3 msg := by
  rw [Xmi.textUnitsGo]
  simp only [hk, hn, h2, h4, if_pos hloc, if_neg hack, if_neg hterm, hitems, ne_eq,
    not_true, reduceIte, if_false, ite_false]

/-- Termination of the `text_units` loop once the location reaches the
end of the record. -/
lemma textUnitsGo_done (recs : List Nat) (fuel loc : Nat) (tu : Xmi.TU) (acc : Xmi.PyStr)
    (msg : Bool) (h : ¬ loc < recs.length) :
    Xmi.textUnitsGo recs (fuel + 1) loc tu acc msg = .ok tu msg := by
  rw [Xmi.textUnitsGo, if_neg h]

/-- C10: in a text-unit record where an INMDSNAM unit (eight dataset
name bytes) is followed by INMLRECL and INMRECFM units, the later
units' stored values are the accumulated dot-joined dataset name — not
their own decoded values (for INMLRECL an integer, for INMRECFM raw
bytes, and a `str` value is neither). -/
theorem c10_dsnam_clobbers_later_units
    (d1 d2 d3 d4 d5 d6 d7 d8 n1 n2 r1 r2 : Nat) :
    Xmi.text_units
      [0x00, 0x02, 0x00, 0x01, 0x00, 0x08, d1, d2, d3, d4, d5, d6, d7, d8,
       0x00, 0x42, 0x00, 0x01, 0x00, 0x02, n1, n2,
       0x00, 0x49, 0x00, 0x01, 0x00, 0x02, r1, r2] false =
      .ok [("INMDSNAM".toList, Xmi.TUVal.str (Xmi.ebcdicDecode [d1, d2, d3, d4, d5, d6, d7, d8])),
       ("INMLRECL".toList, Xmi.TUVal.str (Xmi.ebcdicDecode [d1, d2, d3, d4, d5, d6, d7, d8])),
       ("INMRECFM".toList, Xmi.TUVal.str (Xmi.ebcdicDecode [d1, d2, d3, d4, d5, d6, d7, d8]))]
        false ∧
    (∀ s, Xmi.TUVal.str s ≠ .int (Xmi.pygetInt [n1, n2])) ∧
    (∀ s, Xmi.TUVal.str s ≠ .bytes [r1, r2]) := by
  have t1 : Xmi.tuItemsGo
      [0x00, 0x02, 0x00, 0x01, 0x00, 0x08, d1, d2, d3, d4, d5, d6, d7, d8,
       0x00, 0x42, 0x00, 0x01, 0x00, 0x02, n1, n2,
       0x00, 0x49, 0x00, 0x01, 0x00, 0x02, r1, r2] 2 1 true 0 [] [] =
      (14, [("INMDSNAM".toList, Xmi.TUVal.str (Xmi.ebcdicDecode [d1, d2, d3, d4, d5, d6, d7, d8]))], (Xmi.ebcdicDecode [d1, d2, d3, d4, d5, d6, d7, d8] ++ ['.'])) := rfl
  have t2 : Xmi.tuItemsGo
      [0x00, 0x02, 0x00, 0x01, 0x00, 0x08, d1, d2, d3, d4, d5, d6, d7, d8,
       0x00, 0x42, 0x00, 0x01, 0x00, 0x02, n1, n2,
       0x00, 0x49, 0x00, 0x01, 0x00, 0x02, r1, r2] 0x42 1 true 14
      [("INMDSNAM".toList, Xmi.TUVal.str (Xmi.ebcdicDecode [d1, d2, d3, d4, d5, d6, d7, d8]))] (Xmi.ebcdicDecode [d1, d2, d3, d4, d5, d6, d7, d8] ++ ['.']) =
      (22, [("INMDSNAM".toList, Xmi.TUVal.str (Xmi.ebcdicDecode [d1, d2, d3, d4, d5, d6, d7, d8])),
       ("INMLRECL".toList, Xmi.TUVal.str (Xmi.ebcdicDecode [d1, d2, d3, d4, d5, d6, d7, d8]))], (Xmi.ebcdicDecode [d1, d2, d3, d4, d5, d6, d7, d8] ++ ['.'])) := rfl
  have t3 : Xmi.tuItemsGo
      [0x00, 0x02, 0x00, 0x01, 0x00, 0x08, d1, d2, d3, d4, d5, d6, d7, d8,
       0x00, 0x42, 0x00, 0x01, 0x00, 0x02, n1, n2,
       0x00, 0x49, 0x00, 0x01, 0x00, 0x02, r1, r2] 0x49 1 true 22
      [("INMDSNAM".toList, Xmi.TUVal.str (Xmi.ebcdicDecode [d1, d2, d3, d4, d5, d6, d7, d8])),
       ("INMLRECL".toList, Xmi.TUVal.str (Xmi.ebcdicDecode [d1, d2, d3, d4, d5, d6, d7, d8]))] (Xmi.ebcdicDecode [d1, d2, d3, d4, d5, d6, d7, d8] ++ ['.']) =
      (30, [("INMDSNAM".toList, Xmi.TUVal.str (Xmi.ebcdicDecode [d1, d2, d3, d4, d5, d6, d7, d8])),
       ("INMLRECL".toList, Xmi.TUVal.str (Xmi.ebcdicDecode [d1, d2, d3, d4, d5, d6, d7, d8])),
       ("INMRECFM".toList, Xmi.TUVal.str (Xmi.ebcdicDecode [d1, d2, d3, d4, d5, d6, d7, d8]))], (Xmi.ebcdicDecode [d1, d2, d3, d4, d5, d6, d7, d8] ++ ['.'])) := rfl
  have h0 : Xmi.text_units
      [0x00, 0x02, 0x00, 0x01, 0x00, 0x08, d1, d2, d3, d4, d5, d6, d7, d8,
       0x00, 0x42, 0x00, 0x01, 0x00, 0x02, n1, n2,
       0x00, 0x49, 0x00, 0x01, 0x00, 0x02, r1, r2] false =
      Xmi.textUnitsGo
      [0x00, 0x02, 0x00, 0x01, 0x00, 0x08, d1, d2, d3, d4, d5, d6, d7, d8,
       0x00, 0x42, 0x00, 0x01, 0x00, 0x02, n1, n2,
       0x00, 0x49, 0x00, 0x01, 0x00, 0x02, r1, r2] (30 + 1) 0 [] [] false := rfl
  refine ⟨?_, fun s h => Xmi.TUVal.noConfusion h, fun s h => Xmi.TUVal.noConfusion h⟩
  rw [h0,
    textUnitsGo_step [0x00, 0x02, 0x00, 0x01, 0x00, 0x08, d1, d2, d3, d4, d5, d6, d7, d8,
       0x00, 0x42, 0x00, 0x01, 0x00, 0x02, n1, n2,
       0x00, 0x49, 0x00, 0x01, 0x00, 0x02, r1, r2] 30 0 [] [] false 2 1 14 [("INMDSNAM".toList, Xmi.TUVal.str (Xmi.ebcdicDecode [d1, d2, d3, d4, d5, d6, d7, d8]))] (Xmi.ebcdicDecode [d1, d2, d3, d4, d5, d6, d7, d8] ++ ['.'])
      (by simp) rfl rfl rfl rfl (by decide) (by decide) t1,
    textUnitsGo_step [0x00, 0x02, 0x00, 0x01, 0x00, 0x08, d1, d2, d3, d4, d5, d6, d7, d8,
       0x00, 0x42, 0x00, 0x01, 0x00, 0x02, n1, n2,
       0x00, 0x49, 0x00, 0x01, 0x00, 0x02, r1, r2] 29 14 [("INMDSNAM".toList, Xmi.TUVal.str (Xmi.ebcdicDecode [d1, d2, d3, d4, d5, d6, d7, d8]))] (Xmi.ebcdicDecode [d1, d2, d3, d4, d5, d6, d7, d8] ++ ['.']) false 0x42 1 22 [("INMDSNAM".toList, Xmi.TUVal.str (Xmi.ebcdicDecode [d1, d2, d3, d4, d5, d6, d7, d8])),
       ("INMLRECL".toList, Xmi.TUVal.str (Xmi.ebcdicDecode [d1, d2, d3, d4, d5, d6, d7, d8]))] (Xmi.ebcdicDecode [d1, d2, d3, d4, d5, d6, d7, d8] ++ ['.'])
      (by simp) rfl rfl rfl rfl (by decide) (by decide) t2,
    textUnitsGo_step [0x00, 0x02, 0x00, 0x01, 0x00, 0x08, d1, d2, d3, d4, d5, d6, d7, d8,
       0x00, 0x42, 0x00, 0x01, 0x00, 0x02, n1, n2,
       0x00, 0x49, 0x00, 0x01, 0x00, 0x02, r1, r2] 28 22 [("INMDSNAM".toList, Xmi.TUVal.str (Xmi.ebcdicDecode [d1, d2, d3, d4, d5, d6, d7, d8])),
       ("INMLRECL".toList, Xmi.TUVal.str (Xmi.ebcdicDecode [d1, d2, d3, d4, d5, d6, d7, d8]))] (Xmi.ebcdicDecode [d1, d2, d3, d4, d5, d6, d7, d8] ++ ['.']) false 0x49 1 30 [("INMDSNAM".toList, Xmi.TUVal.str (Xmi.ebcdicDecode [d1, d2, d3, d4, d5, d6, d7, d8])),
       ("INMLRECL".toList, Xmi.TUVal.str (Xmi.ebcdicDecode [d1, d2, d3, d4, d5, d6, d7, d8])),
       ("INMRECFM".toList, Xmi.TUVal.str (Xmi.ebcdicDecode [d1, d2, d3, d4, d5, d6, d7, d8]))] (Xmi.ebcdicDecode [d1, d2, d3, d4, d5, d6, d7, d8] ++ ['.'])
      (by simp) rfl rfl rfl rfl (by decide) (by decide) t3,
    textUnitsGo_done [0x00, 0x02, 0x00, 0x01, 0x00, 0x08, d1, d2, d3, d4, d5, d6, d7, d8,
       0x00, 0x42, 0x00, 0x01, 0x00, 0x02, n1, n2,
       0x00, 0x49, 0x00, 0x01, 0x00, 0x02, r1, r2] 27 30 [("INMDSNAM".toList, Xmi.TUVal.str (Xmi.ebcdicDecode [d1, d2, d3, d4, d5, d6, d7, d8])),
       ("INMLRECL".toList, Xmi.TUVal.str (Xmi.ebcdicDecode [d1, d2, d3, d4, d5, d6, d7, d8])),
       ("INMRECFM".toList, Xmi.TUVal.str (Xmi.ebcdicDecode [d1, d2, d3, d4, d5, d6, d7, d8]))] (Xmi.ebcdicDecode [d1, d2, d3, d4, d5, d6, d7, d8] ++ ['.']) false (by simp)]

/-- C10 witness: a concrete record with dataset name AAAAAAAA ("ABCDEFGH"
in EBCDIC: bytes 0xC1..0xC8), an INMLRECL payload of 0x0050 and an
INMRECFM payload of 0x9600; all three stored values are the dataset
name string. -/
theorem c10_witness :
    Xmi.text_units
      [0x00, 0x02, 0x00, 0x01, 0x00, 0x08, 0xC1, 0xC2, 0xC3, 0xC4, 0xC5, 0xC6, 0xC7, 0xC8,
       0x00, 0x42, 0x00, 0x01, 0x00, 0x02, 0x00, 0x50,
       0x00, 0x49, 0x00, 0x01, 0x00, 0x02, 0x96, 0x00] false =
      .ok [("INMDSNAM".toList, Xmi.TUVal.str (Xmi.ebcdicDecode [0xC1, 0xC2, 0xC3, 0xC4, 0xC5, 0xC6, 0xC7, 0xC8])),
           ("INMLRECL".toList, Xmi.TUVal.str (Xmi.ebcdicDecode [0xC1, 0xC2, 0xC3, 0xC4, 0xC5, 0xC6, 0xC7, 0xC8])),
           ("INMRECFM".toList, Xmi.TUVal.str (Xmi.ebcdicDecode [0xC1, 0xC2, 0xC3, 0xC4, 0xC5, 0xC6, 0xC7, 0xC8]))]
        false ∧
    (∀ s, Xmi.TUVal.str s ≠ .int (Xmi.pygetInt [0x00, 0x50])) ∧
    (∀ s, Xmi.TUVal.str s ≠ .bytes [0x96, 0x00]) :=
  c10_dsnam_clobbers_later_units 0xC1 0xC2 0xC3 0xC4 0xC5 0xC6 0xC7 0xC8 0x00 0x50 0x96 0x00

/-- Byte slices that end inside a common prefix of two buffers are
equal. -/
lemma pySlice_take_eq (s1 s2 : List Nat) (n i j : Nat)
    (ht : s1.take n = s2.take n) (hj : j ≤ n) :
    Xmi.pySlice s1 i j = Xmi.pySlice s2 i j := by
  by_cases hij : j ≤ i
  · have h0 : j - i = 0 := by omega
    simp [Xmi.pySlice, h0]
  · have hi : i + (j - i) = j := by omega
    have e1 : s1.take j = (s1.take n).take j := by
      rw [List.take_take]
      congr 1
      omega
    have e2 : s2.take j = (s2.take n).take j := by
      rw [List.take_take]
      congr 1
      omega
    unfold Xmi.pySlice
    rw [List.take_drop, List.take_drop, hi, e1, e2, ht]

/-- In the data branch the span bound of a loop iteration is the section
extent (at least the two-byte head). -/
lemma pstep_need_data (input : List Nat) (loc : Nat) (st : Xmi.XSt)
    (hf : Xmi.flagOf input loc &&& 0x20 ≠ 0x20) :
    Xmi.needOf (Xmi.pstep input loc st) =
      max (loc + 2) (loc + Xmi.secLen input loc) := by
  simp only [Xmi.pstep, if_pos hf]
  split <;> simp [Xmi.needOf]

/-- In the control branch the span bound of a loop iteration covers the
eight-byte record head and the section extent. -/
lemma pstep_need_ctl (input : List Nat) (loc : Nat) (st : Xmi.XSt)
    (hf : ¬ Xmi.flagOf input loc &&& 0x20 ≠ 0x20) :
    Xmi.needOf (Xmi.pstep input loc st) =
      max (loc + 8) (loc + Xmi.secLen input loc) := by
  simp only [Xmi.pstep, if_neg hf]
  repeat' split
  all_goals simp [Xmi.needOf]

/-- Every loop iteration spans at least the two-byte section head. -/
lemma pstep_need_ge (input : List Nat) (loc : Nat) (st : Xmi.XSt) :
    loc + 2 ≤ Xmi.needOf (Xmi.pstep input loc st) := by
  by_cases hf : Xmi.flagOf input loc &&& 0x20 ≠ 0x20
  · rw [pstep_need_data input loc st hf]
    omega
  · rw [pstep_need_ctl input loc st hf]
    omega

/-- A continuing loop iteration advances the location by exactly the
section length. -/
lemma pstep_cont_loc (input : List Nat) (loc : Nat) (st : Xmi.XSt)
    (loc2 : Nat) (st2 : Xmi.XSt) (need : Nat)
    (h : Xmi.pstep input loc st = .cont loc2 st2 need) :
    loc2 = loc + Xmi.secLen input loc := by
  simp only [Xmi.pstep] at h
  repeat' split at h
  all_goals cases h
  all_goals rfl

/-- At an `INMR06` control record the loop halts at once, returning the
current state. -/
lemma pstep_ins06 (input : List Nat) (loc : Nat) (st : Xmi.XSt)
    (h : Xmi.ins06 input loc = true) :
    Xmi.pstep input loc st =
      .halt (.done6 st) (max (loc + 8) (loc + Xmi.secLen input loc)) := by
  have h' := of_decide_eq_true h
  obtain ⟨hflag, hrt⟩ := h'
  simp only [Xmi.pstep]
  rw [if_neg (by simp [hflag]), hrt,
    if_neg (by decide), if_neg (by decide), if_neg (by decide), if_pos rfl]

/-- Only an `INMR06` control record halts the loop in the `done6`
state. -/
lemma pstep_done6_ins06 (input : List Nat) (loc : Nat) (st : Xmi.XSt)
    (st2 : Xmi.XSt) (need : Nat)
    (h : Xmi.pstep input loc st = .halt (.done6 st2) need) :
    Xmi.ins06 input loc = true := by
  simp only [Xmi.pstep] at h
  split at h <;> rename_i hflag
  · split at h <;> cases h
  · split at h <;> rename_i hr1
    · split at h <;> cases h
    · split at h <;> rename_i hr2
      · split at h <;> cases h
      · split at h <;> rename_i hr3
        · split at h <;> cases h
        · split at h <;> rename_i hr6
          · unfold Xmi.ins06
            rw [decide_eq_true_iff]
            exact ⟨not_ne_iff.mp hflag, hr6⟩
          · cases h

/-- A loop iteration depends on the input only through the section
head, the section body, and (for control records) the record type. -/
lemma pstep_congr (s1 s2 : List Nat) (loc : Nat) (st : Xmi.XSt)
    (h1 : Xmi.secLen s2 loc = Xmi.secLen s1 loc)
    (h2 : Xmi.flagOf s2 loc = Xmi.flagOf s1 loc)
    (hdata : Xmi.flagOf s1 loc &&& 0x20 ≠ 0x20 →
      Xmi.pySlice s2 (loc + 2) (loc + Xmi.secLen s1 loc) =
        Xmi.pySlice s1 (loc + 2) (loc + Xmi.secLen s1 loc))
    (hctl : ¬ Xmi.flagOf s1 loc &&& 0x20 ≠ 0x20 →
      Xmi.rtypeOf s2 loc = Xmi.rtypeOf s1 loc ∧
      Xmi.pySlice s2 (loc + 8) (loc + Xmi.secLen s1 loc) =
        Xmi.pySlice s1 (loc + 8) (loc + Xmi.secLen s1 loc)) :
    Xmi.pstep s2 loc st = Xmi.pstep s1 loc st := by
  simp only [Xmi.pstep]
  rw [h1, h2]
  by_cases hf : Xmi.flagOf s1 loc &&& 0x20 ≠ 0x20
  · simp only [if_pos hf]
    rw [hdata hf]
  · obtain ⟨hr, hs⟩ := hctl hf
    simp only [if_neg hf]
    rw [hr, hs]

/-- Locality of a loop iteration: if its span bound lies inside a
common prefix of two inputs, the iteration behaves identically on
both. -/
lemma pstep_local (s1 s2 : List Nat) (n loc : Nat) (st : Xmi.XSt)
    (p : Xmi.PStep) (ht : s1.take n = s2.take n)
    (hp : Xmi.pstep s1 loc st = p) (hn : Xmi.needOf p ≤ n) :
    Xmi.pstep s2 loc st = p := by
  have hge := pstep_need_ge s1 loc st
  rw [hp] at hge
  have h2 : loc + 2 ≤ n := le_trans hge hn
  rw [← hp]
  apply pstep_congr
  · unfold Xmi.secLen
    rw [pySlice_take_eq s2 s1 n loc (loc + 1) ht.symm (by omega)]
  · unfold Xmi.flagOf
    rw [pySlice_take_eq s2 s1 n (loc + 1) (loc + 2) ht.symm (by omega)]
  · intro hf
    have hnd := pstep_need_data s1 loc st hf
    rw [hp] at hnd
    exact pySlice_take_eq s2 s1 n _ _ ht.symm (by omega)
  · intro hf
    have hnd := pstep_need_ctl s1 loc st hf
    rw [hp] at hnd
    constructor
    · unfold Xmi.rtypeOf
      rw [pySlice_take_eq s2 s1 n (loc + 2) (loc + 8) ht.symm (by omega)]
    · exact pySlice_take_eq s2 s1 n _ _ ht.symm (by omega)

/-- The span accumulator of the parse loop never decreases. -/
lemma parseLoop_le (input : List Nat) (unnum : Bool) :
    ∀ fuel loc st a r hw,
    Xmi.parseLoop input unnum fuel loc st a = (r, hw) → a ≤ hw := by
  intro fuel
  induction fuel with
  | zero =>
    intro loc st a r hw h
    rw [Xmi.parseLoop] at h
    cases h
    exact le_refl a
  | succ f ih =>
    intro loc st a r hw h
    rw [Xmi.parseLoop] at h
    split at h
    · split at h
      · cases h
        exact le_max_left a _
      · exact le_trans (le_max_left a _) (ih _ _ _ _ _ h)
    · split at h <;> (cases h; exact le_refl a)

/-- A `done6` outcome spans at least eight bytes past the location of
the `INMR06` record. -/
lemma parseLoop_done6_ge (input : List Nat) (unnum : Bool) :
    ∀ fuel loc st a st' hw,
    Xmi.parseLoop input unnum fuel loc st a = (.done6 st', hw) →
    loc + 8 ≤ hw := by
  intro fuel
  induction fuel with
  | zero =>
    intro loc st a st' hw h
    rw [Xmi.parseLoop] at h
    injection h with h1 h2
    cases h1
  | succ f ih =>
    intro loc st a st' hw h
    rw [Xmi.parseLoop] at h
    split at h
    · split at h <;> rename_i hps
      · injection h with h1 h2
        subst h1
        have hins := pstep_done6_ins06 _ _ _ _ _ hps
        have hA := pstep_ins06 input loc st hins
        rw [hps] at hA
        injection hA with hA1 hA2
        omega
      · have hl2 := pstep_cont_loc _ _ _ _ _ _ hps
        have := ih _ _ _ _ _ h
        omega
    · split at h <;> (injection h with h1 h2; cases h1)

/-- A zero-length section that is not an `INMR06` record never reaches
the `done6` outcome: the loop stays at the same location forever. -/
lemma parseLoop_stall (input : List Nat) (unnum : Bool) (loc : Nat)
    (h06 : Xmi.ins06 input loc = false) (hz : Xmi.secLen input loc = 0) :
    ∀ fuel st a st' hw,
    Xmi.parseLoop input unnum fuel loc st a ≠ (.done6 st', hw) := by
  intro fuel
  induction fuel with
  | zero =>
    intro st a st' hw h
    rw [Xmi.parseLoop] at h
    injection h with h1 h2
    cases h1
  | succ f ih =>
    intro st a st' hw h
    rw [Xmi.parseLoop] at h
    split at h
    · split at h <;> rename_i hps
      · injection h with h1 h2
        subst h1
        rw [pstep_done6_ins06 _ _ _ _ _ hps] at h06
        cases h06
      · have hl2 := pstep_cont_loc _ _ _ _ _ _ hps
        rw [hz] at hl2
        simp only [Nat.add_zero] at hl2
        subst hl2
        exact ih _ _ _ _ h
    · split at h <;> (injection h with h1 h2; cases h1)

/-- Fuel adjustment: a `done6` outcome is insensitive to the fuel as
long as the fuel covers the span of the parse (each consumed section
advances the location, so the final span bounds the number of
iterations). -/
lemma parseLoop_fuel (input : List Nat) (unnum : Bool) :
    ∀ fuel loc st a st' hw fuel2,
    Xmi.parseLoop input unnum fuel loc st a = (.done6 st', hw) →
    hw ≤ fuel2 + loc + 7 →
    Xmi.parseLoop input unnum fuel2 loc st a = (.done6 st', hw) := by
  intro fuel
  induction fuel with
  | zero =>
    intro loc st a st' hw fuel2 h hf
    rw [Xmi.parseLoop] at h
    injection h with h1 h2
    cases h1
  | succ f ih =>
    intro loc st a st' hw fuel2 h hf
    rw [Xmi.parseLoop] at h
    split at h <;> rename_i hloc
    · split at h <;> rename_i hps
      · injection h with h1 h2
        subst h1
        have hins := pstep_done6_ins06 _ _ _ _ _ hps
        have hA := pstep_ins06 input loc st hins
        rw [hps] at hA
        injection hA with hA1 hA2
        have hf2 : 1 ≤ fuel2 := by omega
        obtain ⟨g, rfl⟩ : ∃ g, fuel2 = g + 1 := ⟨fuel2 - 1, by omega⟩
        rw [Xmi.parseLoop, if_pos hloc, hps]
        dsimp only
        rw [h2]
      · have hl2 := pstep_cont_loc _ _ _ _ _ _ hps
        by_cases hz : Xmi.secLen input loc = 0
        · exfalso
          rcases Bool.eq_false_or_eq_true (Xmi.ins06 input loc) with h06 | h06
          · rw [pstep_ins06 input loc st h06] at hps
            cases hps
          · rw [hz] at hl2
            simp only [Nat.add_zero] at hl2
            rw [hl2] at h
            exact parseLoop_stall input unnum loc h06 hz f _ _ _ _ h
        · have hge := parseLoop_done6_ge input unnum f _ _ _ _ _ h
          have hf2 : 1 ≤ fuel2 := by omega
          obtain ⟨g, rfl⟩ : ∃ g, fuel2 = g + 1 := ⟨fuel2 - 1, by omega⟩
          rw [Xmi.parseLoop, if_pos hloc, hps]
          exact ih _ _ _ _ _ g h (by omega)
    · split at h <;> (injection h with h1 h2; cases h1)

/-- Locality of the parse loop: a `done6` outcome whose span lies
inside a common prefix of two inputs transfers from one input to the
other. -/
lemma parseLoop_local (s1 s2 : List Nat) (unnum : Bool) (n : Nat)
    (ht : s1.take n = s2.take n) (hn2 : n ≤ s2.length) :
    ∀ fuel loc st a st' hw,
    Xmi.parseLoop s1 unnum fuel loc st a = (.done6 st', hw) → hw ≤ n →
    Xmi.parseLoop s2 unnum fuel loc st a = (.done6 st', hw) := by
  intro fuel
  induction fuel with
  | zero =>
    intro loc st a st' hw h hn
    rw [Xmi.parseLoop] at h
    injection h with h1 h2
    cases h1
  | succ f ih =>
    intro loc st a st' hw h hn
    rw [Xmi.parseLoop] at h
    split at h <;> rename_i hloc
    · split at h <;> rename_i hps
      · have h2 : max a _ = hw := congrArg Prod.snd h
        have hne : Xmi.needOf (Xmi.pstep s1 loc st) ≤ n := by
          rw [hps]
          simp only [Xmi.needOf]
          omega
        have hge := pstep_need_ge s1 loc st
        rw [hps] at hge
        simp only [Xmi.needOf] at hge
        have hps2 := pstep_local s1 s2 n loc st _ ht hps (by rw [hps] at hne; exact hne)
        have hloc2 : loc < s2.length := by omega
        rw [Xmi.parseLoop, if_pos hloc2, hps2]
        exact h
      · have hle := parseLoop_le s1 unnum f _ _ _ _ _ h
        have hne : Xmi.needOf (Xmi.pstep s1 loc st) ≤ n := by
          rw [hps]
          simp only [Xmi.needOf]
          omega
        have hge := pstep_need_ge s1 loc st
        rw [hps] at hge
        simp only [Xmi.needOf] at hge
        have hps2 := pstep_local s1 s2 n loc st _ ht hps (by rw [hps] at hne; exact hne)
        have hloc2 : loc < s2.length := by omega
        rw [Xmi.parseLoop, if_pos hloc2, hps2]
        exact ih _ _ _ _ _ h hn
    · split at h <;> (injection h with h1 h2; cases h1)

/-- C6: once `parse_xmi` reaches an `INMR06` control record, the bytes
after it do not influence the result: two inputs with a common prefix
that spans everything the parse consumed (the whole `INMR06` record
included) parse to the same archive state. -/
theorem c6_inmr06_truncation (pre r1 r2 : List Nat) (unnum : Bool)
    (st : Xmi.XSt) (hw : Nat)
    (h1 : Xmi.parse_xmi (pre ++ r1) unnum = (.done6 st, hw))
    (hhw : hw ≤ pre.length) :
    Xmi.parse_xmi (pre ++ r2) unnum = (.done6 st, hw) := by
  unfold Xmi.parse_xmi at h1 ⊢
  split at h1 <;> rename_i hhdr
  · have ht : (pre ++ r1).take pre.length = (pre ++ r2).take pre.length := by
      rw [List.take_left, List.take_left]
    have hlen2 : pre.length ≤ (pre ++ r2).length := by
      rw [List.length_append]
      omega
    have h8 : 8 ≤ hw := parseLoop_done6_ge (pre ++ r1) unnum _ 0 _ 8 st hw h1
    have e1 := parseLoop_fuel (pre ++ r1) unnum _ 0 Xmi.xst0 8 st hw
      (pre.length + 1) h1 (by omega)
    have e2 := parseLoop_local (pre ++ r1) (pre ++ r2) unnum pre.length ht hlen2
      _ 0 Xmi.xst0 8 st hw e1 hhw
    have e3 := parseLoop_fuel (pre ++ r2) unnum _ 0 Xmi.xst0 8 st hw
      ((pre ++ r2).length + 1) e2 (by omega)
    have hhdr2 : Xmi.ebcdicDecode (Xmi.pySlice (pre ++ r2) 2 8) =
        "INMR01".toList := by
      rw [pySlice_take_eq (pre ++ r2) (pre ++ r1) pre.length 2 8 ht.symm
        (by omega)]
      exact hhdr
    rw [if_pos hhdr2]
    exact e3
  · injection h1 with h1a h1b
    cases h1a

/-- C6 witness: a sixteen-byte input holding an empty `INMR01` control
record followed by an `INMR06` record parses to `done6` with span 16;
appending a byte after the `INMR06` record leaves the parse result
unchanged. -/
theorem c6_witness :
    Xmi.parse_xmi
      ([0x08, 0x20, 0xC9, 0xD5, 0xD4, 0xD9, 0xF0, 0xF1,
        0x08, 0x20, 0xC9, 0xD5, 0xD4, 0xD9, 0xF0, 0xF6] ++ [0x07]) false =
      (.done6 ⟨some [], [], [], none, none, [], [], 1, false, 0, 0⟩, 16) :=
  c6_inmr06_truncation
    [0x08, 0x20, 0xC9, 0xD5, 0xD4, 0xD9, 0xF0, 0xF1,
     0x08, 0x20, 0xC9, 0xD5, 0xD4, 0xD9, 0xF0, 0xF6] [] [0x07] false
    ⟨some [], [], [], none, none, [], [], 1, false, 0, 0⟩ 16
    (by decide) (by decide)
